import Mathlib

/-!
Verification development for add_segid.py, a script that parses fixed-column
PDB atom records, rewrites them in one of two dialects (charmm or pdb), and
assigns segment identifiers either automatically (geometric chain-break
heuristic) or from a user-supplied residue-range table.

The Python source is shallowly embedded: strings are lists of characters,
Python int() and float() are partial parsing functions returning Option,
exceptions and crashes (ValueError, NameError, IndexError) are modelled as
a none result, and the per-line conversion loop of make_compatible is a
state-passing step function folded over the stream of parsed records.

Floating point: the source parses coordinate fields with float() and
compares sqrt(d2) with 3.00.  The embedding keeps the exact decimal value
of each coordinate field as an integer mantissa with a power-of-ten
exponent and compares d2 with 9 by integer cross-multiplication, which
agrees with the real-number comparison sqrt(d2) > 3 since sqrt is strictly
monotone on nonnegative reals.  Exponent notation inside a coordinate
field is not modelled (PDB coordinate fields are fixed-point decimals).
-/

namespace AddSegid

/-- Python strings are modelled as lists of characters. -/
abbrev Str := List Char

/-- Characters stripped by Python str.strip() and int()/float() conversion. -/
def isWsChar (c : Char) : Bool :=
  c.toNat = 32 || c.toNat = 9 || c.toNat = 10 || c.toNat = 13 ||
  c.toNat = 11 || c.toNat = 12

/-- ASCII decimal digit test. -/
def isDigitChar (c : Char) : Bool := 48 ≤ c.toNat && c.toNat ≤ 57

/-- ASCII letter test, the Python 2 str.isalpha test on one byte. -/
def pyIsAlpha (c : Char) : Bool :=
  (65 ≤ c.toNat && c.toNat ≤ 90) || (97 ≤ c.toNat && c.toNat ≤ 122)

/-- Numeric value of a digit character. -/
def digitVal (c : Char) : Nat := c.toNat - 48

/-- A run of n space characters. -/
def spaces (n : Nat) : Str := List.replicate n ' '

/-- The source helper read_string(line,start,end): the 1-indexed inclusive
slice of a line from column start to column end. -/
def readStr (line : Str) (s e : Nat) : Str :=
  (line.drop (s - 1)).take (e - s + 1)

/-- Python str.strip(): remove leading and trailing whitespace. -/
def stripWs (s : Str) : Str :=
  ((s.dropWhile isWsChar).reverse.dropWhile isWsChar).reverse

/-- Value of a digit string read in base 10 (total; garbage on non-digits). -/
def valDigits (l : Str) : Nat := l.foldl (fun a c => a * 10 + digitVal c) 0

/-- Base-10 parse of a nonempty all-digit string, none otherwise. -/
def digitsVal (l : Str) : Option Nat :=
  if l = [] then none
  else if l.all isDigitChar then some (valDigits l) else none

/-- Python int(s): strip whitespace, optional sign, nonempty digit run.
A none result models the ValueError raised by the interpreter. -/
def pyInt (s : Str) : Option Int :=
  match stripWs s with
  | '-' :: r => (digitsVal r).map (fun n => -(n : Int))
  | '+' :: r => (digitsVal r).map (fun n => (n : Int))
  | r => (digitsVal r).map (fun n => (n : Int))

/-- Exact value of a parsed float field: mant / 10 ^ exp. -/
structure DecNum where
  mant : Int
  exp : Nat
deriving DecidableEq, Repr

/-- Rational value denoted by a DecNum. -/
def DecNum.val (a : DecNum) : ℚ := (a.mant : ℚ) / (10 : ℚ) ^ a.exp

/-- Exact subtraction of decimal values. -/
def DecNum.sub (a b : DecNum) : DecNum :=
  let m := max a.exp b.exp
  ⟨a.mant * (10 : Int) ^ (m - a.exp) - b.mant * (10 : Int) ^ (m - b.exp), m⟩

/-- Exact addition of decimal values. -/
def DecNum.add (a b : DecNum) : DecNum :=
  let m := max a.exp b.exp
  ⟨a.mant * (10 : Int) ^ (m - a.exp) + b.mant * (10 : Int) ^ (m - b.exp), m⟩

/-- Exact multiplication of decimal values. -/
def DecNum.mul (a b : DecNum) : DecNum := ⟨a.mant * b.mant, a.exp + b.exp⟩

/-- Exact comparison with 9: the squared-distance threshold of the source,
where dist greater than 3.00 was tested after a square root. -/
def DecNum.gtNine (a : DecNum) : Bool := 9 * (10 : Int) ^ a.exp < a.mant

/-- Python float(s) on decimal notation: strip whitespace, optional sign,
digits with an optional decimal point; at least one digit overall. -/
def pyFloat (s : Str) : Option DecNum :=
  let t := stripWs s
  let p : Int × Str :=
    match t with
    | '-' :: r => (-1, r)
    | '+' :: r => (1, r)
    | r => (1, r)
  match p.2.splitOn '.' with
  | [u] => (digitsVal u).map (fun n => ⟨p.1 * n, 0⟩)
  | [u, v] =>
      if (u ≠ [] ∨ v ≠ []) ∧ u.all isDigitChar ∧ v.all isDigitChar then
        some ⟨p.1 * (valDigits u * 10 ^ v.length + valDigits v), v.length⟩
      else none
  | _ => none

/-- Little-endian base-10 digits of n, with fuel for structural recursion. -/
def natDigitsRev (fuel n : Nat) : List Nat :=
  match fuel with
  | 0 => []
  | f + 1 => if n = 0 then [] else (n % 10) :: natDigitsRev f (n / 10)

/-- Python str(n) for a natural number. -/
def strNat (n : Nat) : Str :=
  if n = 0 then ['0'] else ((natDigitsRev n n).map Nat.digitChar).reverse

/-- Python str(n) for an integer. -/
def strInt (n : Int) : Str :=
  if n < 0 then '-' :: strNat n.natAbs else strNat n.toNat

/-- Python string.rjust(s, w): left-pad with spaces to width w. -/
def rjust (s : Str) (w : Nat) : Str :=
  if w ≤ s.length then s else spaces (w - s.length) ++ s

/-- Python string.zfill(s, w): left-pad with zeros to width w, keeping a
leading sign character in place. -/
def zfill (s : Str) (w : Nat) : Str :=
  if w ≤ s.length then s
  else
    match s with
    | '-' :: t => '-' :: (List.replicate (w - s.length) '0' ++ t)
    | '+' :: t => '+' :: (List.replicate (w - s.length) '0' ++ t)
    | t => List.replicate (w - t.length) '0' ++ t

/-- Machine-generated segment id: the letter E followed by the counter
zero-filled to width 3, as in the source expression E + zfill(str(n),3). -/
def estr (n : Int) : Str := 'E' :: zfill (strInt n) 3

/-- The blank 81-character line produced for unrecognized input. -/
def blankLine : Str := spaces 80 ++ ['\n']

/-- Line normalization at the top of pdb_line: pad short ATOM lines to 80
characters plus a newline; anything else that is not exactly 81 characters,
or whose head is neither HETATM nor ATOM, becomes the blank line. -/
def normalize (line : Str) : Str :=
  let l1 :=
    if 1 < line.length ∧ line.length < 81 ∧ readStr line 1 4 = "ATOM".toList
    then line ++ spaces (80 - line.length) ++ ['\n'] else line
  let l2 := if l1.length ≠ 81 then blankLine else l1
  if readStr l2 1 6 ≠ "HETATM".toList ∧ readStr l2 1 4 ≠ "ATOM".toList
  then blankLine else l2

/-- One parsed atom record: the fields of class pdb_line. -/
structure Record where
  ATOM : Str
  serial : Str
  name : Str
  altloc : Str
  resname : Str
  chain : Str
  resnum : Str
  charmm_resnum : Str
  icode : Str
  x : Str
  y : Str
  z : Str
  occ : Str
  tempfac : Str
  segid : Str
  elename : Str
  charge : Str
deriving DecidableEq, Repr

/-- Python 2 str.isalpha: nonempty and every character a letter. -/
def strIsAlpha (s : Str) : Bool := !s.isEmpty && s.all pyIsAlpha

/-- Field extraction and residue-number reconciliation of pdb_line. -/
def parseLine (line0 : Str) : Record :=
  let line := normalize line0
  let resnum0 := readStr line 23 26
  let charmm0 := readStr line 24 27
  let icode0 := readStr line 27 27
  -- residue labels such as 74A: keep only the integer part
  let a := strIsAlpha (readStr line 27 27)
  let charmm1 := if a then readStr line 24 26 ++ [' '] else charmm0
  let icode1 := if a then [' '] else icode0
  -- charmm-style wide residue numbers: try int comparison, with the
  -- except branch taken when either conversion raises ValueError
  let rec1 : Str × Str :=
    if resnum0 ≠ "    ".toList then
      match pyInt resnum0, pyInt charmm1 with
      | some va, some vb =>
          if va < vb then (charmm1, [' ']) else (resnum0, icode1)
      | _, _ => (charmm1, [' '])
    else (resnum0, icode1)
  { ATOM := readStr line 1 6
    serial := readStr line 7 11
    name := readStr line 13 16
    altloc := readStr line 17 17
    resname := readStr line 18 21
    chain := readStr line 22 22
    resnum := rec1.1
    charmm_resnum := charmm1
    icode := rec1.2
    x := readStr line 31 38
    y := readStr line 39 46
    z := readStr line 47 54
    occ := readStr line 55 60
    tempfac := readStr line 61 66
    segid := readStr line 73 76
    elename := readStr line 77 78
    charge := readStr line 79 80 }

/-- Serialization pdb_line.write_charmm. -/
def writeCharmm (r : Record) : Str :=
  r.ATOM ++ r.serial ++ " ".toList ++ r.name ++ r.altloc ++ r.resname ++
  r.chain ++ " ".toList ++ r.resnum ++ "   ".toList ++
  r.x ++ r.y ++ r.z ++ r.occ ++ r.tempfac ++ "      ".toList ++
  r.segid ++ r.elename ++ r.charge ++ ['\n']

/-- Serialization pdb_line.write_pdb. -/
def writePdb (r : Record) : Str :=
  r.ATOM ++ r.serial ++ " ".toList ++ r.name ++ r.altloc ++ r.resname ++
  r.chain ++ r.resnum ++ r.icode ++ "   ".toList ++
  r.x ++ r.y ++ r.z ++ r.occ ++ r.tempfac ++ "      ".toList ++
  r.segid ++ r.elename ++ r.charge ++ ['\n']

/-- The check_line filter: only ATOM and HETATM records are relevant. -/
def isRelevant (r : Record) : Bool :=
  r.ATOM = "ATOM  ".toList || r.ATOM = "HETATM".toList

/-- The water residue names special-cased by make_compatible. -/
def waters : List Str :=
  ["HOH ".toList, "TIP3".toList, "TIP4".toList, "TIP5".toList,
   "SPC ".toList, "SPCE".toList, "WAT ".toList, "SOL ".toList]

/-- The stream of relevant records of an input: read_relevant_line skips
every line that does not parse to an ATOM or HETATM record. -/
def relevantRecords (lines : List Str) : List Record :=
  (lines.filter (fun l => isRelevant (parseLine l))).map parseLine

/-- The loop state of make_compatible: the running counters, the
previously emitted record, the markers taken when a segment was opened,
the chain id of the previous input record, the first-water flag, and the
coordinate of the most recent atom named O, absent until one is seen. -/
structure AutoState where
  segid : Int
  resnum : Int
  atom1 : Record
  original_segid : Str
  original_resnum : Str
  chain : Str
  first_water : Bool
  last_O_coor : Option (DecNum × DecNum × DecNum)
deriving DecidableEq, Repr

/-- Handling of the first relevant record in make_compatible, before the
loop: the residue counter starts from the record when its number is not 1,
the segment id is forced to E001, chain and element are cleared.  The
truthiness guard on resnum never fires for a parsed record, whose resnum
field always holds four characters, so a non-numeric resnum makes int()
raise an uncaught ValueError, modelled as none. -/
def initAuto (r0 : Record) : Option (AutoState × Record) :=
  let rn? : Option Int :=
    if r0.resnum ≠ [] then
      match pyInt r0.resnum with
      | none => none
      | some v => some (if v ≠ 1 then v else 1)
    else some 1
  match rn? with
  | none => none
  | some resnum =>
    let a1 := {r0 with resnum := rjust (strInt resnum) 4}
    let osg := a1.segid
    let orn := a1.resnum
    let a1 := {a1 with segid := estr 1, chain := " ".toList,
                       ATOM := "ATOM  ".toList, elename := "  ".toList}
    some ({ segid := 1, resnum := resnum, atom1 := a1,
            original_segid := osg, original_resnum := orn,
            chain := r0.chain, first_water := false, last_O_coor := none }, a1)

/-- Residue renumbering of a non-water record: the counter advances when
the original residue number changes, the residue name changes, or the atom
is the backbone nitrogen; returns the new counter, the new original-resnum
marker, and the renumbered record. -/
def phaseResnum (st : AutoState) (a2 : Record) : Int × Str × Record :=
  let inc := st.original_resnum ≠ a2.resnum ∨ st.atom1.resname ≠ a2.resname ∨
             a2.name = " N  ".toList
  let rn := if inc then st.resnum + 1 else st.resnum
  (rn, a2.resnum, {a2 with resnum := rjust (strInt rn) 4})

/-- Segment-id inheritance: a blank segid, or one equal to the marker
recorded when the previous segment was opened, inherits the previous
emitted segid. -/
def phaseInherit (st : AutoState) (a2 : Record) : Record :=
  let a2 := if a2.segid = "    ".toList then {a2 with segid := st.atom1.segid} else a2
  if a2.segid = st.original_segid then {a2 with segid := st.atom1.segid} else a2

/-- Geometric test: an atom named O records its coordinate; an atom named
N measures the squared distance from the last O coordinate and clears the
segid to a single space when it exceeds 9, that is when the distance
exceeds 3.00.  A missing last O coordinate is the uncaught NameError of
the source; an unparsable coordinate field is an uncaught ValueError. -/
def phaseGeom (st : AutoState) (a2 : Record) :
    Option (Record × Option (DecNum × DecNum × DecNum)) :=
  if a2.name = " O  ".toList then
    match pyFloat a2.x, pyFloat a2.y, pyFloat a2.z with
    | some cx, some cy, some cz => some (a2, some (cx, cy, cz))
    | _, _, _ => none
  else if a2.name = " N  ".toList then
    match st.last_O_coor with
    | none => none
    | some o =>
      match pyFloat a2.x, pyFloat a2.y, pyFloat a2.z with
      | some cx, some cy, some cz =>
        let d2 := (((o.1.sub cx).mul (o.1.sub cx)).add
                    ((o.2.1.sub cy).mul (o.2.1.sub cy))).add
                  ((o.2.2.sub cz).mul (o.2.2.sub cz))
        if d2.gtNine then some ({a2 with segid := " ".toList}, st.last_O_coor)
        else some (a2, st.last_O_coor)
      | _, _, _ => none
  else some (a2, st.last_O_coor)

/-- Segment-break handling: when the chain id changed or the segid differs
from the previous emitted segid, remember the markers, restart the residue
counter (from 1, or from the original marker when the previous emitted
residue number is not 1), bump the segment counter, assign the E segid,
and override it with ACY for acetate.  Returns the residue counter, the
segment counter, the original-segid marker, and the record. -/
def phaseBreak (st : AutoState) (rn : Int) (orig2 : Str) (a2 : Record) :
    Option (Int × Int × Str × Record) :=
  if st.chain ≠ a2.chain ∨ a2.segid ≠ st.atom1.segid then
    match pyInt st.atom1.resnum with
    | none => none
    | some p =>
      match (if p ≠ 1 then pyInt orig2 else some 1) with
      | none => none
      | some rn2 =>
        let a2 := {a2 with resnum := rjust (strInt rn2) 4}
        let a2 := {a2 with segid := estr (st.segid + 1)}
        let a2 := if a2.resname = "ACY ".toList then {a2 with segid := " ACY".toList} else a2
        some (rn2, st.segid + 1, st.atom1.segid, a2)
  else some (rn, st.segid, st.original_segid, a2)

/-- Water handling: force the WAT segid, reset the residue counter at the
first water, advance it on every atom whose stripped name starts with O.
An all-blank atom name is the uncaught IndexError of name.strip()[0]. -/
def stepWater (st : AutoState) (a2 : Record) : Option (Int × Bool × Record) :=
  let a2 := {a2 with segid := " WAT".toList}
  let rw : Int × Bool :=
    if st.first_water = false then (0, true) else (st.resnum, st.first_water)
  match stripWs a2.name with
  | [] => none
  | c :: _ =>
    let rn := if c = 'O' then rw.1 + 1 else rw.1
    some (rn, rw.2, {a2 with resnum := rjust (strInt rn) 4})

/-- One iteration of the conversion loop of make_compatible on the next
record, ending with the common clearing of chain, record kind and element
before emission. -/
def stepAuto (st : AutoState) (a2 : Record) : Option (AutoState × Record) :=
  if a2.resname ∈ waters then
    match stepWater st a2 with
    | none => none
    | some (rn, fw, a2w) =>
      let fin := {a2w with chain := " ".toList, ATOM := "ATOM  ".toList,
                           elename := "  ".toList}
      some ({st with resnum := rn, first_water := fw, atom1 := fin,
                     chain := a2w.chain}, fin)
  else
    let pr := phaseResnum st a2
    let a2b := phaseInherit st pr.2.2
    match phaseGeom st a2b with
    | none => none
    | some (a2c, lo) =>
      match phaseBreak st pr.1 pr.2.1 a2c with
      | none => none
      | some (rn2, sg2, osg2, a2d) =>
        let fin := {a2d with chain := " ".toList, ATOM := "ATOM  ".toList,
                             elename := "  ".toList}
        some ({ segid := sg2, resnum := rn2, atom1 := fin,
                original_segid := osg2, original_resnum := pr.2.1,
                chain := a2d.chain, first_water := st.first_water,
                last_O_coor := lo }, fin)

/-- The conversion loop folded over the remaining records. -/
def goAuto : AutoState → List Record → Option (List Record)
  | _, [] => some []
  | st, r :: rs =>
    match stepAuto st r with
    | none => none
    | some (st2, e) =>
      match goAuto st2 rs with
      | none => none
      | some out => some (e :: out)

/-- The automatic segmentation engine on a stream of parsed records.  On
an empty stream the source parses end of file into the blank record whose
resnum is four spaces, and int() raises, hence none. -/
def runAuto : List Record → Option (List Record)
  | [] => none
  | r :: rs =>
    match initAuto r with
    | none => none
    | some (st0, e0) =>
      match goAuto st0 rs with
      | none => none
      | some out => some (e0 :: out)

/-- make_compatible at the line level: filter to relevant records, then
run the automatic engine; the emitted records are the output. -/
def makeCompatible (lines : List Str) : Option (List Record) :=
  runAuto (relevantRecords lines)

/-- The range scan of make_segid: ranges are tried in order, at offset i
of an original table of the given total length; the first range holding
the residue number assigns its segid, every miss assigns the fallback and
continues. -/
def rangeLoop (rn : Int) (rs : List (Int × Int)) (i total : Nat) (cur : Str) : Str :=
  match rs with
  | [] => cur
  | (b, e) :: rest =>
    if b ≤ rn ∧ rn ≤ e then estr ((i : Int) + 1)
    else rangeLoop rn rest (i + 1) total (estr ((total : Int) + 1))

/-- Index of the first range containing rn, stated as in the spec: the
first range containing the residue number wins. -/
def firstHit (rn : Int) : List (Int × Int) → Option Nat
  | [] => none
  | (b, e) :: rest =>
    if b ≤ rn ∧ rn ≤ e then some 0 else (firstHit rn rest).map (· + 1)

/-- Per-record body of make_segid: force the ATOM record kind, then assign
the segid from the range table.  With a nonempty table int(resnum) is
evaluated inside the loop, so an unparsable residue number raises; with an
empty table the loop body never runs and the record passes through. -/
def makeSegidRecord (ranges : List (Int × Int)) (r : Record) : Option Record :=
  let r1 := {r with ATOM := "ATOM  ".toList}
  match ranges with
  | [] => some r1
  | _ :: _ =>
    match pyInt r1.resnum with
    | none => none
    | some rn => some {r1 with segid := rangeLoop rn ranges 0 ranges.length r1.segid}

/-- The range-based engine over the relevant records of the input. -/
def makeSegid (ranges : List (Int × Int)) (lines : List Str) : Option (List Record) :=
  (relevantRecords lines).mapM (makeSegidRecord ranges)

/-- Builder for well-formed 80-column test lines plus newline; every field
is passed at its exact width. -/
def mkLine (serial nm resname chain resnum icode x y z segid : String) : Str :=
  ("ATOM  " ++ serial ++ " " ++ nm ++ " " ++ resname ++ chain ++ resnum ++
   icode ++ "   " ++ x ++ y ++ z ++ "  1.00" ++ "  0.00" ++ "      " ++
   segid ++ "  " ++ "  ").toList ++ ['\n']

/-- Concrete input: a lone water record as the first relevant record. -/
def c1Line : Str :=
  mkLine "    1" " O  " "HOH " "A" "   1" " " "   0.000" "   0.000" "   0.000" "    "

/-- Concrete inputs for the geometric-break counterexample: an alanine
record, then an acetate oxygen at the origin, then an acetate nitrogen at
x = 4, so the O to N distance is 4. -/
def c2Line1 : Str :=
  mkLine "    1" " CA " "ALA " "A" "   1" " " "   0.000" "   0.000" "   0.000" "    "

/-- Acetate oxygen at the origin on a new chain. -/
def c2Line2 : Str :=
  mkLine "    2" " O  " "ACY " "B" "   2" " " "   0.000" "   0.000" "   0.000" "    "

/-- Acetate nitrogen at distance 4 from the last oxygen. -/
def c2Line3 : Str :=
  mkLine "    3" " N  " "ACY " "B" "   3" " " "   4.000" "   0.000" "   0.000" "    "

/-- Concrete inputs for the residue-counter counterexample: residue 5 on
chain A, then residue 7 on chain B. -/
def c3Line1 : Str :=
  mkLine "    1" " CA " "ALA " "A" "   5" " " "   0.000" "   0.000" "   0.000" "    "

/-- Second record of the residue-counter counterexample. -/
def c3Line2 : Str :=
  mkLine "    2" " CA " "ALA " "B" "   7" " " "   0.000" "   0.000" "   0.000" "    "

/-- Concrete input with the wide residue-number convention: columns 23-27
hold 1000 so that columns 24-27 read as 1000 and columns 23-26 as 100. -/
def c4Line : Str :=
  mkLine "    1" " CA " "ALA " "A" " 100" "0" "   0.000" "   0.000" "   0.000" "    "

/-- Concrete input whose residue-number columns 23-27 are all blank. -/
def c6Line : Str :=
  mkLine "    1" " CA " "ALA " "A" "    " " " "   0.000" "   0.000" "   0.000" "    "

/-- A HETATM line shorter than 80 characters. -/
def c8Line : Str := "HETATM    1  O   HOH A   1".toList

/-- Invariant of the automatic engine: the segment counter is at least 1
and the previously emitted segid is the machine segid of the counter, the
acetate segid, or the water segid. -/
def autoInv (st : AutoState) : Prop :=
  1 ≤ st.segid ∧
  (st.atom1.segid = estr st.segid ∨ st.atom1.segid = " ACY".toList ∨
   st.atom1.segid = " WAT".toList)

instance (st : AutoState) : Decidable (autoInv st) := by
  rw [autoInv]
  infer_instance

/-- The all-blank record, the parse of an empty line. -/
def blankRec : Record := parseLine []

/-- Fallback state used only as the default of Option.getD below. -/
def dfltSt : AutoState :=
  { segid := 1, resnum := 1, atom1 := blankRec, original_segid := [],
    original_resnum := [], chain := [], first_water := false,
    last_O_coor := none }

/-- An alanine oxygen record at the origin, same chain as c2Line1. -/
def w2Line2 : Str :=
  mkLine "    2" " O  " "ALA " "A" "   1" " " "   0.000" "   0.000" "   0.000" "    "

/-- A glycine nitrogen record at x = 4, distance 4 from the oxygen. -/
def w2Line3 : Str :=
  mkLine "    3" " N  " "GLY " "A" "   2" " " "   4.000" "   0.000" "   0.000" "    "

/-- Engine state reached after the first record and the oxygen record. -/
def c2wSt : AutoState :=
  ((stepAuto ((initAuto (parseLine c2Line1)).getD (dfltSt, blankRec)).1
      (parseLine w2Line2)).getD (dfltSt, blankRec)).1

/-- The nitrogen record fed to the engine in the geometric-break witness. -/
def c2wA2 : Record := parseLine w2Line3

/-- Result of the geometric-break witness step. -/
def c2wOut : AutoState × Record := (stepAuto c2wSt c2wA2).getD (dfltSt, blankRec)

/-- Engine state after the first record of the residue-counter witness. -/
def c3wSt : AutoState :=
  ((initAuto (parseLine c3Line1)).getD (dfltSt, blankRec)).1

/-- The chain-changing record of the residue-counter witness. -/
def c3wA2 : Record := parseLine c3Line2

/-- Result of the residue-counter witness step. -/
def c3wOut : AutoState × Record := (stepAuto c3wSt c3wA2).getD (dfltSt, blankRec)

/-- Input records of the water-invariant witness: a protein record and a
water record. -/
def c1wRecs : List Record := relevantRecords [c3Line1, c1Line]

/-- Output of the automatic engine on the water-invariant witness input. -/
def c1wOut : List Record := (runAuto c1wRecs).getD []

/-- A nitrogen record for the missing-oxygen witness. -/
def c9wA2 : Record := parseLine w2Line3

/-- Range table of the range-engine witnesses. -/
def c5wRanges : List (Int × Int) := [(1, 13), (14, 30)]

/-- A record with residue number 20, inside the second range. -/
def c5Line : Str :=
  mkLine "    9" " CA " "ALA " "A" "  20" " " "   1.000" "   2.000" "   3.000" "    "

/-- Parsed record of the range-engine totality witness. -/
def c5wR : Record := parseLine c5Line

/-- Output record of the range-engine totality witness. -/
def c5wOut : Record := (makeSegidRecord c5wRanges c5wR).getD blankRec

/-- Output record of the range-engine frame witness. -/
def c10wOut : Record := (makeSegidRecord [(1, 13)] c5wR).getD blankRec

/-- A short ATOM line, 26 characters, for the padding witness. -/
def c8bLine : Str := "ATOM      1  CA  ALA A   1".toList

/- ------------------------------------------------------------------ -/
/- Lemmas on decimal strings.                                          -/
/- ------------------------------------------------------------------ -/

lemma valDigits_append_singleton (l : Str) (c : Char) :
    valDigits (l ++ [c]) = valDigits l * 10 + digitVal c := by
  simp [valDigits, List.foldl_append]

lemma valDigits_cons_zero (s : Str) : valDigits ('0' :: s) = valDigits s := rfl

lemma valDigits_zeros_prepend (k : Nat) (s : Str) :
    valDigits (List.replicate k '0' ++ s) = valDigits s := by
  induction k with
  | zero => simp
  | succ n ih =>
      rw [List.replicate_succ, List.cons_append, valDigits_cons_zero, ih]

lemma digitVal_digitChar (d : Nat) (h : d < 10) :
    digitVal (Nat.digitChar d) = d := by
  interval_cases d <;> rfl

lemma isDigitChar_digitChar (d : Nat) (h : d < 10) :
    isDigitChar (Nat.digitChar d) = true := by
  interval_cases d <;> rfl

lemma natDigitsRev_lt (fuel : Nat) : ∀ n, ∀ d ∈ natDigitsRev fuel n, d < 10 := by
  induction fuel with
  | zero => intro n d hd; simp [natDigitsRev] at hd
  | succ f ih =>
      intro n d hd
      rw [natDigitsRev] at hd
      by_cases hn : n = 0
      · simp [hn] at hd
      · rw [if_neg hn] at hd
        rcases List.mem_cons.mp hd with h | h
        · subst h; exact Nat.mod_lt _ (by omega)
        · exact ih _ _ h

lemma valDigits_natDigitsRev (fuel : Nat) : ∀ n, n ≤ fuel →
    valDigits ((natDigitsRev fuel n).map Nat.digitChar).reverse = n := by
  induction fuel with
  | zero =>
      intro n h
      interval_cases n
      simp [natDigitsRev, valDigits]
  | succ f ih =>
      intro n h
      rw [natDigitsRev]
      by_cases hn : n = 0
      · simp [hn, valDigits]
      · rw [if_neg hn]
        have hdiv : n / 10 ≤ f := by
          have := Nat.div_lt_self (Nat.pos_of_ne_zero hn) (by omega : 1 < 10)
          omega
        have hrec := ih (n / 10) hdiv
        simp only [List.map_cons, List.reverse_cons]
        rw [valDigits_append_singleton, hrec,
            digitVal_digitChar _ (Nat.mod_lt _ (by omega))]
        omega

lemma valDigits_strNat (n : Nat) : valDigits (strNat n) = n := by
  rw [strNat]
  by_cases hn : n = 0
  · simp [hn]; rfl
  · rw [if_neg hn]; exact valDigits_natDigitsRev n n le_rfl

lemma strNat_ne_nil (n : Nat) : strNat n ≠ [] := by
  rw [strNat]
  by_cases hn : n = 0
  · simp [hn]
  · rw [if_neg hn]
    rcases Nat.exists_eq_succ_of_ne_zero hn with ⟨m, hm⟩
    subst hm
    rw [natDigitsRev, if_neg hn]
    simp

lemma strNat_all_digits (n : Nat) : ∀ c ∈ strNat n, isDigitChar c = true := by
  intro c hc
  rw [strNat] at hc
  by_cases hn : n = 0
  · rw [if_pos hn] at hc
    simp at hc
    subst hc; rfl
  · rw [if_neg hn] at hc
    rw [List.mem_reverse, List.mem_map] at hc
    rcases hc with ⟨d, hd, hdc⟩
    subst hdc
    exact isDigitChar_digitChar d (natDigitsRev_lt n n d hd)

lemma isDigitChar_ne_dash (c : Char) (h : isDigitChar c = true) : c ≠ '-' := by
  intro hc; subst hc; simp [isDigitChar] at h

lemma isDigitChar_ne_plus (c : Char) (h : isDigitChar c = true) : c ≠ '+' := by
  intro hc; subst hc; simp [isDigitChar] at h

lemma zfill_digits (s : Str) (w : Nat)
    (hd : ∀ c ∈ s, isDigitChar c = true) :
    zfill s w = s ∨ zfill s w = List.replicate (w - s.length) '0' ++ s := by
  rw [zfill]
  case x_1 =>
    intro r heq
    have hm : '-' ∈ s := by rw [heq]; exact List.mem_cons_self '-' r
    have := hd '-' hm
    simp [isDigitChar] at this
  case x_2 =>
    intro r heq
    have hm : '+' ∈ s := by rw [heq]; exact List.mem_cons_self '+' r
    have := hd '+' hm
    simp [isDigitChar] at this
  by_cases hw : w ≤ s.length
  · left; rw [if_pos hw]
  · rw [if_neg hw]; right; rfl

lemma valDigits_zfill_strNat (n : Nat) (w : Nat) :
    valDigits (zfill (strNat n) w) = n := by
  rcases zfill_digits (strNat n) w (strNat_all_digits n) with h | h
  · rw [h, valDigits_strNat]
  · rw [h, valDigits_zeros_prepend, valDigits_strNat]

lemma estr_inj_nonneg (a b : Int) (ha : 0 ≤ a) (hb : 0 ≤ b)
    (h : estr a = estr b) : a = b := by
  rw [estr, estr, strInt, strInt, if_neg (by omega : ¬ a < 0),
      if_neg (by omega : ¬ b < 0)] at h
  have h2 := List.cons.injEq 'E' (zfill (strNat a.toNat) 3) 'E'
    (zfill (strNat b.toNat) 3) ▸ h
  have h3 : zfill (strNat a.toNat) 3 = zfill (strNat b.toNat) 3 := by
    exact (List.cons.injEq _ _ _ _ ▸ h).2
  have h4 := congrArg valDigits h3
  rw [valDigits_zfill_strNat, valDigits_zfill_strNat] at h4
  omega

lemma estr_head (n : Int) : (estr n).head? = some 'E' := rfl

lemma estr_ne_of_head (n : Int) (s : Str) (hs : s.head? ≠ some 'E') :
    estr n ≠ s := by
  intro h
  exact hs (h ▸ estr_head n)

/- ------------------------------------------------------------------ -/
/- Bridge between the exact decimal arithmetic and the rationals.      -/
/- ------------------------------------------------------------------ -/

lemma pow_ten_mul_sub (p m : Nat) (h : p ≤ m) :
    (10 : ℚ) ^ (m - p) * 10 ^ p = 10 ^ m := by
  rw [← pow_add]
  congr 1
  omega

lemma DecNum.val_sub (a b : DecNum) : (a.sub b).val = a.val - b.val := by
  rcases a with ⟨am, ap⟩
  rcases b with ⟨bm, bp⟩
  have ha : ((10 : ℚ) ^ ap : ℚ) ≠ 0 := by positivity
  have hb : ((10 : ℚ) ^ bp : ℚ) ≠ 0 := by positivity
  have e1 := pow_ten_mul_sub ap (max ap bp) (le_max_left _ _)
  have e2 := pow_ten_mul_sub bp (max ap bp) (le_max_right _ _)
  simp only [DecNum.sub, DecNum.val]
  push_cast
  rw [div_sub_div _ _ ha hb, div_eq_div_iff (by positivity) (by positivity)]
  linear_combination ((am : ℚ) * 10 ^ bp) * e1 - ((bm : ℚ) * 10 ^ ap) * e2

lemma DecNum.val_add (a b : DecNum) : (a.add b).val = a.val + b.val := by
  rcases a with ⟨am, ap⟩
  rcases b with ⟨bm, bp⟩
  have ha : ((10 : ℚ) ^ ap : ℚ) ≠ 0 := by positivity
  have hb : ((10 : ℚ) ^ bp : ℚ) ≠ 0 := by positivity
  have e1 := pow_ten_mul_sub ap (max ap bp) (le_max_left _ _)
  have e2 := pow_ten_mul_sub bp (max ap bp) (le_max_right _ _)
  simp only [DecNum.add, DecNum.val]
  push_cast
  rw [div_add_div _ _ ha hb, div_eq_div_iff (by positivity) (by positivity)]
  linear_combination ((am : ℚ) * 10 ^ bp) * e1 + ((bm : ℚ) * 10 ^ ap) * e2

lemma DecNum.val_mul (a b : DecNum) : (a.mul b).val = a.val * b.val := by
  rcases a with ⟨am, ap⟩
  rcases b with ⟨bm, bp⟩
  simp only [DecNum.mul, DecNum.val]
  push_cast
  rw [div_mul_div_comm, pow_add]

lemma DecNum.gtNine_iff (a : DecNum) : a.gtNine = true ↔ (9 : ℚ) < a.val := by
  rcases a with ⟨am, ap⟩
  simp only [DecNum.gtNine, DecNum.val, decide_eq_true_eq]
  rw [lt_div_iff₀ (by positivity : (0 : ℚ) < (10 : ℚ) ^ ap)]
  constructor <;> intro h <;> exact_mod_cast h

/- ------------------------------------------------------------------ -/
/- Lemmas on the Python numeric conversions.                           -/
/- ------------------------------------------------------------------ -/

lemma getLast?_mem (l : Str) (c : Char) (h : l.getLast? = some c) : c ∈ l := by
  have hd := List.dropLast_append_getLast? c (by rw [h]; rfl)
  rw [← hd]
  simp

lemma digitsVal_none_of_mem (l : Str) (c : Char) (hc : c ∈ l)
    (hd : isDigitChar c = false) : digitsVal l = none := by
  rw [digitsVal]
  rcases l with _ | ⟨a, t⟩
  · simp at hc
  · rw [if_neg (by simp)]
    have hall : (a :: t).all isDigitChar = false := by
      by_cases h : (a :: t).all isDigitChar = true
      · rw [List.all_eq_true] at h
        rw [h c hc] at hd
        exact absurd hd (by simp)
      · simpa using h
    rw [hall]
    simp

lemma alpha_not_ws (c : Char) (h : pyIsAlpha c = true) : isWsChar c = false := by
  simp only [pyIsAlpha, Bool.or_eq_true, Bool.and_eq_true, decide_eq_true_eq] at h
  simp only [isWsChar, Bool.or_eq_false_iff, decide_eq_false_iff_not]
  omega

lemma alpha_not_digit (c : Char) (h : pyIsAlpha c = true) :
    isDigitChar c = false := by
  simp only [pyIsAlpha, Bool.or_eq_true, Bool.and_eq_true, decide_eq_true_eq] at h
  simp only [isDigitChar, Bool.and_eq_false_iff, decide_eq_false_iff_not]
  omega

lemma alpha_ne_dash (c : Char) (h : pyIsAlpha c = true) : c ≠ '-' := by
  intro hc
  subst hc
  simp [pyIsAlpha] at h

lemma alpha_ne_plus (c : Char) (h : pyIsAlpha c = true) : c ≠ '+' := by
  intro hc
  subst hc
  simp [pyIsAlpha] at h

lemma stripWs_of_alpha_getLast (s : Str) (c : Char) (hlast : s.getLast? = some c)
    (hc : pyIsAlpha c = true) :
    stripWs s = s.dropWhile isWsChar ∧ (s.dropWhile isWsChar).getLast? = some c := by
  have hne : s.dropWhile isWsChar ≠ [] := by
    intro hnil
    have hmem := getLast?_mem s c hlast
    have hkept : isWsChar c = false := alpha_not_ws c hc
    have := List.dropWhile_eq_nil_iff.mp hnil c hmem
    rw [this] at hkept
    exact absurd hkept (by simp)
  have hlast1 : (s.dropWhile isWsChar).getLast? = s.getLast? := by
    rcases (List.dropWhile_suffix isWsChar : s.dropWhile isWsChar <:+ s) with ⟨pre, hpre⟩
    conv_rhs => rw [← hpre]
    exact (List.getLast?_append_of_ne_nil pre hne).symm
  refine ⟨?_, by rw [hlast1, hlast]⟩
  have hhead : (s.dropWhile isWsChar).reverse.head? = some c := by
    rw [List.head?_reverse, hlast1, hlast]
  rw [stripWs]
  cases hrev : (s.dropWhile isWsChar).reverse with
  | nil => rw [hrev] at hhead; simp at hhead
  | cons d rest =>
      rw [hrev] at hhead
      have hdc : d = c := by simpa using hhead
      rw [List.dropWhile_cons, hdc, alpha_not_ws c hc]
      simp only [Bool.false_eq_true, if_false]
      rw [← hdc, ← hrev, List.reverse_reverse]

lemma pyInt_alpha_getLast (s : Str) (c : Char) (hlast : s.getLast? = some c)
    (hc : pyIsAlpha c = true) : pyInt s = none := by
  rcases stripWs_of_alpha_getLast s c hlast hc with ⟨hstrip, hlast1⟩
  rw [pyInt, hstrip]
  rcases hd : s.dropWhile isWsChar with _ | ⟨d, t⟩
  · rw [hd] at hlast1; simp at hlast1
  · rw [hd] at hlast1
    have hcmem : c ∈ d :: t := getLast?_mem _ _ hlast1
    have hct : c ∈ t ∨ (t = [] ∧ c = d) := by
      rcases t with _ | ⟨e, u⟩
      · right
        refine ⟨rfl, ?_⟩
        have h5 : d = c := by simpa using hlast1
        exact h5.symm
      · left
        rw [List.getLast?_cons_cons] at hlast1
        exact getLast?_mem _ _ hlast1
    have hdig := alpha_not_digit c hc
    split
    · next r heq =>
        rw [List.cons.injEq] at heq
        rcases hct with h | ⟨ht, hcd⟩
        · rw [← heq.2, digitsVal_none_of_mem t c h hdig]
          rfl
        · rw [heq.1] at hcd
          exact absurd hcd (alpha_ne_dash c hc)
    · next r heq =>
        rw [List.cons.injEq] at heq
        rcases hct with h | ⟨ht, hcd⟩
        · rw [← heq.2, digitsVal_none_of_mem t c h hdig]
          rfl
        · rw [heq.1] at hcd
          exact absurd hcd (alpha_ne_plus c hc)
    · rw [digitsVal_none_of_mem (d :: t) c hcmem hdig]
      rfl

/- ------------------------------------------------------------------ -/
/- Lemmas on line normalization and column extraction.                 -/
/- ------------------------------------------------------------------ -/

lemma blankLine_length : blankLine.length = 81 := by
  simp [blankLine, spaces]

lemma normalize_length (line : Str) : (normalize line).length = 81 := by
  simp only [normalize]
  split_ifs <;> first
    | exact blankLine_length
    | omega

lemma readStr_length (line : Str) (h : line.length = 81) (s e : Nat)
    (h1 : 1 ≤ s) (h2 : e ≤ 81) (h3 : s ≤ e) :
    (readStr line s e).length = e - s + 1 := by
  simp only [readStr, List.length_take, List.length_drop, h]
  omega

lemma readStr_concat (w pre f rest : Str) (s e : Nat) (hw : w = pre ++ (f ++ rest))
    (hp : pre.length = s - 1) (hf : f.length = e - s + 1) :
    readStr w s e = f := by
  rw [hw, readStr, ← hp, List.drop_left pre (f ++ rest), ← hf,
      List.take_left f rest]

lemma normalize_of_wf (line : Str) (h : line.length = 81)
    (hk : readStr line 1 6 = "HETATM".toList ∨ readStr line 1 4 = "ATOM".toList) :
    normalize line = line := by
  simp only [normalize]
  rw [if_neg (by rintro ⟨_, h2, _⟩; omega :
    ¬ (1 < line.length ∧ line.length < 81 ∧ readStr line 1 4 = "ATOM".toList))]
  rw [if_neg (by omega : ¬ line.length ≠ 81)]
  rw [if_neg ?_]
  rintro ⟨hH, hA⟩
  rcases hk with hk | hk
  · exact hH hk
  · exact hA hk

lemma parseLine_passthrough (line : Str) (h : line.length = 81)
    (hk : readStr line 1 6 = "HETATM".toList ∨ readStr line 1 4 = "ATOM".toList) :
    (parseLine line).ATOM = readStr line 1 6 ∧
    (parseLine line).serial = readStr line 7 11 ∧
    (parseLine line).name = readStr line 13 16 ∧
    (parseLine line).altloc = readStr line 17 17 ∧
    (parseLine line).resname = readStr line 18 21 ∧
    (parseLine line).chain = readStr line 22 22 ∧
    (parseLine line).x = readStr line 31 38 ∧
    (parseLine line).y = readStr line 39 46 ∧
    (parseLine line).z = readStr line 47 54 ∧
    (parseLine line).occ = readStr line 55 60 ∧
    (parseLine line).tempfac = readStr line 61 66 ∧
    (parseLine line).segid = readStr line 73 76 ∧
    (parseLine line).elename = readStr line 77 78 ∧
    (parseLine line).charge = readStr line 79 80 := by
  simp only [parseLine, normalize_of_wf line h hk]
  repeat constructor

lemma parseLine_resnum_shape (line : Str) :
    (parseLine line).resnum.length = 4 ∧ (parseLine line).icode.length = 1 := by
  have hL := normalize_length line
  have h0 : (readStr (normalize line) 23 26).length = 4 :=
    readStr_length _ hL 23 26 (by omega) (by omega) (by omega)
  have h1 : (readStr (normalize line) 24 27).length = 4 :=
    readStr_length _ hL 24 27 (by omega) (by omega) (by omega)
  have h2 : (readStr (normalize line) 24 26 ++ [' ']).length = 4 := by
    rw [List.length_append, readStr_length _ hL 24 26 (by omega) (by omega) (by omega)]
    rfl
  have h3 : (readStr (normalize line) 27 27).length = 1 :=
    readStr_length _ hL 27 27 (by omega) (by omega) (by omega)
  simp only [parseLine]
  split
  · split
    · split <;> split_ifs <;> simp_all
    · split_ifs <;> simp_all
  · split_ifs <;> simp_all

lemma parseLine_field_lengths (line : Str) :
    (parseLine line).ATOM.length = 6 ∧ (parseLine line).serial.length = 5 ∧
    (parseLine line).name.length = 4 ∧ (parseLine line).altloc.length = 1 ∧
    (parseLine line).resname.length = 4 ∧ (parseLine line).chain.length = 1 ∧
    (parseLine line).resnum.length = 4 ∧ (parseLine line).icode.length = 1 ∧
    (parseLine line).x.length = 8 ∧ (parseLine line).y.length = 8 ∧
    (parseLine line).z.length = 8 ∧ (parseLine line).occ.length = 6 ∧
    (parseLine line).tempfac.length = 6 ∧ (parseLine line).segid.length = 4 ∧
    (parseLine line).elename.length = 2 ∧ (parseLine line).charge.length = 2 := by
  have hL := normalize_length line
  rcases parseLine_resnum_shape line with ⟨hr, hi⟩
  refine ⟨?_, ?_, ?_, ?_, ?_, ?_, hr, hi, ?_, ?_, ?_, ?_, ?_, ?_, ?_, ?_⟩ <;>
    simp only [parseLine] <;>
    exact readStr_length _ hL _ _ (by omega) (by omega) (by omega)

/- ------------------------------------------------------------------ -/
/- Lemmas on the automatic segmentation engine.                        -/
/- ------------------------------------------------------------------ -/

lemma stepWater_some (st : AutoState) (a2 : Record) (rn : Int) (fw : Bool)
    (a2w : Record) (h : stepWater st a2 = some (rn, fw, a2w)) :
    a2w.segid = " WAT".toList ∧ a2w.resname = a2.resname := by
  rw [stepWater] at h
  rcases hn : stripWs a2.name with _ | ⟨c, t⟩ <;> rw [hn] at h
  · simp at h
  · simp only [Option.some.injEq, Prod.mk.injEq] at h
    rw [← h.2.2]
    exact ⟨rfl, rfl⟩

lemma stepAuto_water (st : AutoState) (a2 : Record) (st2 : AutoState)
    (e : Record) (hw : a2.resname ∈ waters)
    (h : stepAuto st a2 = some (st2, e)) :
    e.segid = " WAT".toList ∧ e.resname = a2.resname := by
  rw [stepAuto, if_pos hw] at h
  rcases hsw : stepWater st a2 with _ | ⟨rn, fw, a2w⟩ <;> rw [hsw] at h
  · simp at h
  · simp only [Option.some.injEq, Prod.mk.injEq] at h
    rcases stepWater_some st a2 rn fw a2w hsw with ⟨h1, h2⟩
    rw [← h.2]
    exact ⟨h1, h2⟩

lemma stepAuto_nonwater (st : AutoState) (a2 : Record) (h : a2.resname ∉ waters) :
    stepAuto st a2 =
      match phaseGeom st (phaseInherit st (phaseResnum st a2).2.2) with
      | none => none
      | some (a2c, lo) =>
        match phaseBreak st (phaseResnum st a2).1 (phaseResnum st a2).2.1 a2c with
        | none => none
        | some (rn2, sg2, osg2, a2d) =>
          some ({ segid := sg2, resnum := rn2,
                  atom1 := {a2d with
                             chain := " ".toList,
                             ATOM := "ATOM  ".toList,
                             elename := "  ".toList},
                  original_segid := osg2,
                  original_resnum := (phaseResnum st a2).2.1,
                  chain := a2d.chain, first_water := st.first_water,
                  last_O_coor := lo },
                {a2d with
                  chain := " ".toList, ATOM := "ATOM  ".toList,
                  elename := "  ".toList}) := by
  rw [stepAuto, if_neg h]

lemma phaseResnum_frame (st : AutoState) (a2 : Record) :
    ((phaseResnum st a2).2.2).name = a2.name ∧
    ((phaseResnum st a2).2.2).resname = a2.resname ∧
    ((phaseResnum st a2).2.2).segid = a2.segid ∧
    ((phaseResnum st a2).2.2).chain = a2.chain ∧
    ((phaseResnum st a2).2.2).x = a2.x ∧
    ((phaseResnum st a2).2.2).y = a2.y ∧
    ((phaseResnum st a2).2.2).z = a2.z := by
  exact ⟨rfl, rfl, rfl, rfl, rfl, rfl, rfl⟩

lemma phaseInherit_frame (st : AutoState) (a2 : Record) :
    (phaseInherit st a2).name = a2.name ∧
    (phaseInherit st a2).resname = a2.resname ∧
    (phaseInherit st a2).chain = a2.chain ∧
    (phaseInherit st a2).resnum = a2.resnum ∧
    (phaseInherit st a2).x = a2.x ∧
    (phaseInherit st a2).y = a2.y ∧
    (phaseInherit st a2).z = a2.z := by
  simp only [phaseInherit]
  split_ifs <;> exact ⟨rfl, rfl, rfl, rfl, rfl, rfl, rfl⟩

lemma phaseGeom_none_of_no_oxygen (st : AutoState) (a2 : Record)
    (hn : a2.name = " N  ".toList) (ho : st.last_O_coor = none) :
    phaseGeom st a2 = none := by
  rw [phaseGeom, if_neg (by rw [hn]; decide), if_pos hn, ho]

lemma phaseGeom_keeps_lastO (st : AutoState) (a2 : Record) (a2c : Record)
    (lo : Option (DecNum × DecNum × DecNum))
    (hname : a2.name ≠ " O  ".toList)
    (h : phaseGeom st a2 = some (a2c, lo)) : lo = st.last_O_coor := by
  by_cases hn : a2.name = " N  ".toList
  · rcases ho : st.last_O_coor with _ | o
    · simp [phaseGeom, hname, hn, ho] at h
    · rcases hx : pyFloat a2.x with _ | cx
      · simp [phaseGeom, hname, hn, ho, hx] at h
      · rcases hy : pyFloat a2.y with _ | cy
        · simp [phaseGeom, hname, hn, ho, hx, hy] at h
        · rcases hz : pyFloat a2.z with _ | cz
          · simp [phaseGeom, hname, hn, ho, hx, hy, hz] at h
          · rw [phaseGeom, if_neg hname, if_pos hn] at h
            simp only [ho, hx, hy, hz] at h
            split at h <;> simp only [Option.some.injEq, Prod.mk.injEq] at h <;>
              exact h.2.symm
  · simp only [phaseGeom] at h
    rw [if_neg hname, if_neg hn] at h
    simp only [Option.some.injEq, Prod.mk.injEq] at h
    rw [← h.2]

lemma stepAuto_clears (st : AutoState) (a2 : Record) (st2 : AutoState)
    (e : Record) (h : stepAuto st a2 = some (st2, e)) :
    e.chain = " ".toList ∧ e.ATOM = "ATOM  ".toList ∧ e.elename = "  ".toList := by
  by_cases hw : a2.resname ∈ waters
  · rw [stepAuto, if_pos hw] at h
    rcases hsw : stepWater st a2 with _ | ⟨rn, fw, a2w⟩ <;> rw [hsw] at h
    · simp at h
    · simp only [Option.some.injEq, Prod.mk.injEq] at h
      rw [← h.2]
      exact ⟨rfl, rfl, rfl⟩
  · rw [stepAuto_nonwater st a2 hw] at h
    rcases hg : phaseGeom st (phaseInherit st (phaseResnum st a2).2.2) with
      _ | ⟨a2c, lo⟩ <;> simp only [hg] at h
    · exact Option.noConfusion h
    · rcases hb : phaseBreak st (phaseResnum st a2).1 (phaseResnum st a2).2.1 a2c with
        _ | ⟨rn2, sg2, osg2, a2d⟩ <;> simp only [hb] at h
      · exact Option.noConfusion h
      · simp only [Option.some.injEq, Prod.mk.injEq] at h
        rw [← h.2]
        exact ⟨rfl, rfl, rfl⟩

lemma goAuto_water : ∀ (rs : List Record) (st : AutoState) (out : List Record),
    goAuto st rs = some out → ∀ p ∈ rs.zip out, p.1.resname ∈ waters →
    p.2.segid = " WAT".toList := by
  intro rs
  induction rs with
  | nil =>
      intro st out h p hp
      rw [goAuto] at h
      simp only [Option.some.injEq] at h
      rw [← h] at hp
      simp at hp
  | cons r rest ih =>
      intro st out h p hp hw
      rw [goAuto] at h
      rcases hsa : stepAuto st r with _ | ⟨st2, e⟩ <;> simp only [hsa] at h
      · exact Option.noConfusion h
      · rcases hgo : goAuto st2 rest with _ | out2 <;> simp only [hgo] at h
        · exact Option.noConfusion h
        · injection h with h
          rw [← h] at hp
          rcases List.mem_cons.mp hp with hph | hph
          · rw [hph] at hw ⊢
            exact (stepAuto_water st r st2 e hw hsa).1
          · exact ih st2 out2 hgo p hph hw

lemma phaseGeom_N (st : AutoState) (a2 : Record) (o : DecNum × DecNum × DecNum)
    (cx cy cz : DecNum) (hn : a2.name = " N  ".toList)
    (ho : st.last_O_coor = some o) (hx : pyFloat a2.x = some cx)
    (hy : pyFloat a2.y = some cy) (hz : pyFloat a2.z = some cz) :
    phaseGeom st a2 =
      (if ((((o.1.sub cx).mul (o.1.sub cx)).add
             ((o.2.1.sub cy).mul (o.2.1.sub cy))).add
             ((o.2.2.sub cz).mul (o.2.2.sub cz))).gtNine
       then some ({a2 with segid := " ".toList}, some o)
       else some (a2, some o)) := by
  rw [phaseGeom, if_neg (by rw [hn]; decide), if_pos hn]
  simp only [ho, hx, hy, hz]

lemma d2_val (o : DecNum × DecNum × DecNum) (cx cy cz : DecNum) :
    ((((o.1.sub cx).mul (o.1.sub cx)).add
      ((o.2.1.sub cy).mul (o.2.1.sub cy))).add
      ((o.2.2.sub cz).mul (o.2.2.sub cz))).val =
    (o.1.val - cx.val) ^ 2 + (o.2.1.val - cy.val) ^ 2 +
      (o.2.2.val - cz.val) ^ 2 := by
  rw [DecNum.val_add, DecNum.val_add, DecNum.val_mul, DecNum.val_mul,
      DecNum.val_mul, DecNum.val_sub, DecNum.val_sub, DecNum.val_sub]
  ring

lemma d2_gtNine_iff (o : DecNum × DecNum × DecNum) (cx cy cz : DecNum) :
    ((((o.1.sub cx).mul (o.1.sub cx)).add
      ((o.2.1.sub cy).mul (o.2.1.sub cy))).add
      ((o.2.2.sub cz).mul (o.2.2.sub cz))).gtNine = true ↔
    (9 : ℚ) < (o.1.val - cx.val) ^ 2 + (o.2.1.val - cy.val) ^ 2 +
      (o.2.2.val - cz.val) ^ 2 := by
  rw [DecNum.gtNine_iff, d2_val]

lemma phaseBreak_spec (st : AutoState) (rn : Int) (orig2 : Str) (a2 : Record)
    (rn2 : Int) (sg2 : Int) (osg2 : Str) (a2d : Record)
    (h : phaseBreak st rn orig2 a2 = some (rn2, sg2, osg2, a2d)) :
    (¬ (st.chain ≠ a2.chain ∨ a2.segid ≠ st.atom1.segid) ∧ rn2 = rn ∧
      sg2 = st.segid ∧ osg2 = st.original_segid ∧ a2d = a2) ∨
    ((st.chain ≠ a2.chain ∨ a2.segid ≠ st.atom1.segid) ∧ sg2 = st.segid + 1 ∧
      osg2 = st.atom1.segid ∧
      a2d.segid = (if a2.resname = "ACY ".toList then " ACY".toList
                   else estr (st.segid + 1)) ∧
      a2d.resnum = rjust (strInt rn2) 4 ∧ a2d.resname = a2.resname ∧
      a2d.chain = a2.chain ∧ a2d.name = a2.name ∧
      (pyInt st.atom1.resnum = some 1 → rn2 = 1) ∧
      (∀ p, pyInt st.atom1.resnum = some p → p ≠ 1 → pyInt orig2 = some rn2)) := by
  rw [phaseBreak] at h
  split at h
  · next hbr =>
      rcases hp : pyInt st.atom1.resnum with _ | p <;> simp only [hp] at h
      · exact Option.noConfusion h
      · by_cases hp1 : p ≠ 1
        · rw [if_pos hp1] at h
          rcases ho : pyInt orig2 with _ | q <;> simp only [ho] at h
          · exact Option.noConfusion h
          · simp only [Option.some.injEq, Prod.mk.injEq] at h
            obtain ⟨h1, h2, h3, h4⟩ := h
            right
            subst h1 h2 h3
            refine ⟨hbr, rfl, rfl, ?_, ?_, ?_, ?_, ?_, ?_, ?_⟩
            · rw [← h4]
              split_ifs <;> simp_all
            · rw [← h4]
              split_ifs <;> rfl
            · rw [← h4]
              split_ifs <;> rfl
            · rw [← h4]
              split_ifs <;> rfl
            · rw [← h4]
              split_ifs <;> rfl
            · intro hone
              injection hone with hone
              omega
            · intro p2 hp2 hne
              rfl
        · rw [if_neg hp1] at h
          simp only [Option.some.injEq, Prod.mk.injEq] at h
          obtain ⟨h1, h2, h3, h4⟩ := h
          right
          subst h1 h2 h3
          refine ⟨hbr, rfl, rfl, ?_, ?_, ?_, ?_, ?_, ?_, ?_⟩
          · rw [← h4]
            split_ifs <;> simp_all
          · rw [← h4]
            split_ifs <;> rfl
          · rw [← h4]
            split_ifs <;> rfl
          · rw [← h4]
            split_ifs <;> rfl
          · rw [← h4]
            split_ifs <;> rfl
          · intro _
            rfl
          · intro p2 hp2 hp21
            injection hp2 with hp2
            simp only [ne_eq, not_not] at hp1
            exact absurd (by omega : p2 = 1) hp21
  · next hbr =>
      simp only [Option.some.injEq, Prod.mk.injEq] at h
      obtain ⟨h1, h2, h3, h4⟩ := h
      left
      exact ⟨hbr, h1.symm, h2.symm, h3.symm, h4.symm⟩

lemma initAuto_inv (r : Record) (st0 : AutoState) (e0 : Record)
    (h : initAuto r = some (st0, e0)) :
    autoInv st0 ∧ st0.last_O_coor = none ∧ e0.segid = estr 1 ∧ st0.atom1 = e0 := by
  rw [initAuto] at h
  by_cases hr : r.resnum ≠ []
  · rw [if_pos hr] at h
    rcases hp : pyInt r.resnum with _ | v <;> simp only [hp] at h
    · exact Option.noConfusion h
    · simp only [Option.some.injEq, Prod.mk.injEq] at h
      obtain ⟨h1, h2⟩ := h
      rw [← h1, ← h2]
      exact ⟨⟨le_refl 1, Or.inl rfl⟩, rfl, rfl, rfl⟩
  · rw [if_neg hr] at h
    simp only [Option.some.injEq, Prod.mk.injEq] at h
    obtain ⟨h1, h2⟩ := h
    rw [← h1, ← h2]
    exact ⟨⟨le_refl 1, Or.inl rfl⟩, rfl, rfl, rfl⟩

lemma stepAuto_inv (st : AutoState) (a2 : Record) (st2 : AutoState) (e : Record)
    (hinv : autoInv st) (h : stepAuto st a2 = some (st2, e)) :
    autoInv st2 ∧ st2.atom1 = e := by
  by_cases hw : a2.resname ∈ waters
  · rw [stepAuto, if_pos hw] at h
    rcases hsw : stepWater st a2 with _ | ⟨rn, fw, a2w⟩ <;> simp only [hsw] at h
    · exact Option.noConfusion h
    · simp only [Option.some.injEq, Prod.mk.injEq] at h
      obtain ⟨h1, h2⟩ := h
      rw [← h1]
      have hseg := (stepWater_some st a2 rn fw a2w hsw).1
      refine ⟨⟨hinv.1, Or.inr (Or.inr ?_)⟩, by rw [h2]⟩
      simp only [hseg]
  · rw [stepAuto_nonwater st a2 hw] at h
    rcases hg : phaseGeom st (phaseInherit st (phaseResnum st a2).2.2) with
      _ | ⟨a2c, lo⟩ <;> simp only [hg] at h
    · exact Option.noConfusion h
    · rcases hb : phaseBreak st (phaseResnum st a2).1 (phaseResnum st a2).2.1 a2c with
        _ | ⟨rn2, sg2, osg2, a2d⟩ <;> simp only [hb] at h
      · exact Option.noConfusion h
      · simp only [Option.some.injEq, Prod.mk.injEq] at h
        obtain ⟨h1, h2⟩ := h
        rw [← h1]
        rcases phaseBreak_spec st _ _ a2c rn2 sg2 osg2 a2d hb with
          ⟨hnb, _, hsg, _, ha⟩ | ⟨hbr, hsg, _, hseg, _⟩
        · push_neg at hnb
          refine ⟨⟨?_, ?_⟩, h2⟩
          · show (1 : Int) ≤ sg2
            rw [hsg]
            exact hinv.1
          · show a2d.segid = estr sg2 ∨ a2d.segid = " ACY".toList ∨
              a2d.segid = " WAT".toList
            rw [ha, hnb.2, hsg]
            rcases hinv.2 with hi | hi | hi
            · exact Or.inl hi
            · exact Or.inr (Or.inl hi)
            · exact Or.inr (Or.inr hi)
        · refine ⟨⟨?_, ?_⟩, h2⟩
          · show (1 : Int) ≤ sg2
            have := hinv.1
            omega
          · show a2d.segid = estr sg2 ∨ a2d.segid = " ACY".toList ∨
              a2d.segid = " WAT".toList
            rw [hseg, hsg]
            by_cases hacy : a2c.resname = "ACY ".toList
            · rw [if_pos hacy]
              exact Or.inr (Or.inl rfl)
            · rw [if_neg hacy]
              exact Or.inl rfl

lemma rangeLoop_firstHit : ∀ (rs : List (Int × Int)) (rn : Int) (i total : Nat)
    (cur : Str),
    rangeLoop rn rs i total cur =
      match firstHit rn rs with
      | some j => estr (((i + j + 1 : Nat) : Int))
      | none => if rs = [] then cur else estr (((total + 1 : Nat) : Int)) := by
  intro rs
  induction rs with
  | nil =>
      intro rn i total cur
      rfl
  | cons be rest ih =>
      rcases be with ⟨b, e⟩
      intro rn i total cur
      rw [rangeLoop, firstHit]
      by_cases hbe : b ≤ rn ∧ rn ≤ e
      · rw [if_pos hbe, if_pos hbe]
        congr 1
      · rw [if_neg hbe, if_neg hbe, ih]
        rcases hfh : firstHit rn rest with _ | j <;> simp only [hfh]
        · rw [if_neg (by simp : ¬ (((b, e) :: rest : List (Int × Int)) = []))]
          split_ifs <;> rfl
        · congr 1
          push_cast
          ring

end AddSegid

namespace AddSegid

lemma phaseGeom_frame (st : AutoState) (a2 a2c : Record)
    (lo : Option (DecNum × DecNum × DecNum))
    (h : phaseGeom st a2 = some (a2c, lo)) :
    a2c.name = a2.name ∧ a2c.resname = a2.resname ∧ a2c.chain = a2.chain ∧
    a2c.resnum = a2.resnum := by
  rw [phaseGeom] at h
  by_cases ho2 : a2.name = " O  ".toList
  · rw [if_pos ho2] at h
    rcases hx : pyFloat a2.x with _ | cx <;>
      rcases hy : pyFloat a2.y with _ | cy <;>
        rcases hz : pyFloat a2.z with _ | cz <;>
          simp only [hx, hy, hz] at h <;>
          first
            | exact Option.noConfusion h
            | (simp only [Option.some.injEq, Prod.mk.injEq] at h
               rw [← h.1]
               exact ⟨rfl, rfl, rfl, rfl⟩)
  · rw [if_neg ho2] at h
    by_cases hn : a2.name = " N  ".toList
    · rw [if_pos hn] at h
      rcases ho : st.last_O_coor with _ | o <;> simp only [ho] at h
      · exact Option.noConfusion h
      · rcases hx : pyFloat a2.x with _ | cx <;>
          rcases hy : pyFloat a2.y with _ | cy <;>
            rcases hz : pyFloat a2.z with _ | cz <;>
              simp only [hx, hy, hz] at h <;>
              first
                | exact Option.noConfusion h
                | (split at h <;>
                    (simp only [Option.some.injEq, Prod.mk.injEq] at h
                     rw [← h.1]
                     exact ⟨rfl, rfl, rfl, rfl⟩))
    · rw [if_neg hn] at h
      simp only [Option.some.injEq, Prod.mk.injEq] at h
      rw [← h.1]
      exact ⟨rfl, rfl, rfl, rfl⟩

/- ------------------------------------------------------------------ -/
/- Claim theorems.                                                     -/
/- ------------------------------------------------------------------ -/

/-- C1 counterexample: a water record that is the first relevant record of
the input is emitted with segment id E001, not WAT, because the first
record is handled before the loop and its segid is forced to E001. -/
theorem C1_counterexample :
    (parseLine c1Line).resname ∈ waters ∧
    (makeCompatible [c1Line]).map (List.map Record.segid) =
      some ["E001".toList] ∧
    ("E001".toList : Str) ≠ " WAT".toList :=
  ⟨by decide, by decide, by decide⟩

/-- C1 amended: in the automatic engine every record processed by the
conversion loop, that is every relevant record after the first, whose
residue name is in the water set is emitted with segment id WAT; the first
relevant record is exempt since it is emitted before the loop with E001. -/
theorem C1_water_invariant :
    ∀ (recs out : List Record), runAuto recs = some out →
    ∀ p ∈ (recs.zip out).drop 1, p.1.resname ∈ waters →
    p.2.segid = " WAT".toList := by
  intro recs out h p hp hw
  rcases recs with _ | ⟨r, rs⟩
  · rw [runAuto] at h
    exact Option.noConfusion h
  · rw [runAuto] at h
    rcases hi : initAuto r with _ | ⟨st0, e0⟩ <;> simp only [hi] at h
    · exact Option.noConfusion h
    · rcases hgo : goAuto st0 rs with _ | out2 <;> simp only [hgo] at h
      · exact Option.noConfusion h
      · injection h with h
        rw [← h] at hp
        rw [List.zip_cons_cons, List.drop_one, List.tail_cons] at hp
        exact goAuto_water rs st0 out2 hgo p hp hw

/-- C1 witness: on a protein record followed by a water record the loop
emits the water record with segment id WAT. -/
theorem C1_water_invariant_witness :
    (((c1wRecs.zip c1wOut).get ⟨1, by decide⟩).2).segid = " WAT".toList :=
  C1_water_invariant c1wRecs c1wOut (by decide)
    ((c1wRecs.zip c1wOut).get ⟨1, by decide⟩) (by decide) (by decide)

/-- C6: a first relevant record whose residue-number field is blank is a
fatal error, not a tolerated absence: the field is a nonempty four-space
string, so the truthiness guard passes and int() raises an uncaught
ValueError; the engine yields no output at all. -/
theorem C6_blank_resnum_fatal :
    (parseLine c6Line).resnum = "    ".toList ∧
    (parseLine c6Line).resnum ≠ [] ∧
    pyInt "    ".toList = none ∧
    makeCompatible [c6Line] = none :=
  ⟨by decide, by decide, by decide, by decide⟩

/-- C8 counterexample: a HETATM line shorter than 80 characters is not
right-padded; it collapses to the all-blank record, exactly as the parse
of an empty line does. -/
theorem C8_counterexample :
    readStr c8Line 1 6 = "HETATM".toList ∧ c8Line.length < 80 ∧
    parseLine c8Line = parseLine [] ∧
    (parseLine c8Line).ATOM = "      ".toList :=
  ⟨by decide, by decide, by decide, by decide⟩

/-- C8 amended: the normalized line always has exactly 80 data characters
plus a terminator; only short ATOM lines (2 to 80 characters with an ATOM
head) are right-padded with spaces; every other line that is not exactly
81 characters, and every line recognizable as neither HETATM nor ATOM,
becomes the all-blank line. -/
theorem C8_normalization : ∀ line : Str,
    (normalize line).length = 81 ∧
    (2 ≤ line.length → line.length ≤ 80 → readStr line 1 4 = "ATOM".toList →
      normalize line = line ++ spaces (80 - line.length) ++ ['\n']) ∧
    (line.length ≠ 81 → readStr line 1 4 ≠ "ATOM".toList →
      normalize line = blankLine) ∧
    (readStr line 1 6 ≠ "HETATM".toList → readStr line 1 4 ≠ "ATOM".toList →
      normalize line = blankLine) := by
  intro line
  refine ⟨normalize_length line, ?_, ?_, ?_⟩
  · intro h2 h80 hA
    have hlen4 : 4 ≤ line.length := by
      have hl := congrArg List.length hA
      simp only [readStr, List.length_take, List.length_drop] at hl
      have h4 : ("ATOM".toList : Str).length = 4 := by decide
      omega
    have hplen : (line ++ spaces (80 - line.length) ++ ['\n']).length = 81 := by
      simp [spaces]
      omega
    have hA2 : readStr (line ++ spaces (80 - line.length) ++ ['\n']) 1 4 =
        "ATOM".toList := by
      have hr1 : readStr line 1 4 = line.take 4 := by simp [readStr]
      have hr2 : readStr (line ++ spaces (80 - line.length) ++ ['\n']) 1 4 =
          (line ++ spaces (80 - line.length) ++ ['\n']).take 4 := by
        simp [readStr]
      rw [hr2, List.append_assoc, List.take_append_of_le_length hlen4, ← hr1, hA]
    have hc1 : 1 < line.length ∧ line.length < 81 ∧
        readStr line 1 4 = "ATOM".toList := ⟨by omega, by omega, hA⟩
    simp only [normalize]
    rw [if_pos hc1]
    rw [if_neg (by rw [hplen]; omega :
      ¬ (line ++ spaces (80 - line.length) ++ ['\n']).length ≠ 81)]
    rw [if_neg (fun hcon => hcon.2 hA2)]
  · intro h81 hA
    have hnc1 : ¬ (1 < line.length ∧ line.length < 81 ∧
        readStr line 1 4 = "ATOM".toList) := by
      rintro ⟨_, _, hAp⟩
      exact hA hAp
    simp only [normalize]
    rw [if_neg hnc1, if_pos h81, if_pos (by decide)]
  · intro hH hA
    have hnc1 : ¬ (1 < line.length ∧ line.length < 81 ∧
        readStr line 1 4 = "ATOM".toList) := by
      rintro ⟨_, _, hAp⟩
      exact hA hAp
    simp only [normalize]
    rw [if_neg hnc1]
    by_cases h81 : line.length ≠ 81
    · rw [if_pos h81, if_pos (by decide)]
    · rw [if_neg h81]
      rw [if_pos ⟨hH, hA⟩]

/-- C8 witness: a 26-character ATOM line is right-padded to 80 characters
plus a newline. -/
theorem C8_normalization_witness :
    normalize c8bLine = c8bLine ++ spaces (80 - c8bLine.length) ++ ['\n'] :=
  (C8_normalization c8bLine).2.1 (by decide) (by decide) (by decide)

/-- C9: the geometric test is only defined once an oxygen has been seen by
the loop: a non-water record named N stepping from a state with no stored
oxygen coordinate fails (the NameError of the source); a successful step
on a record not named O leaves the stored coordinate unchanged; and the
initial state after the first record stores no oxygen coordinate. -/
theorem C9_missing_oxygen :
    (∀ (st : AutoState) (a2 : Record), a2.resname ∉ waters →
      a2.name = " N  ".toList → st.last_O_coor = none →
      stepAuto st a2 = none) ∧
    (∀ (st : AutoState) (a2 : Record) (st2 : AutoState) (e : Record),
      stepAuto st a2 = some (st2, e) → a2.name ≠ " O  ".toList →
      st2.last_O_coor = st.last_O_coor) ∧
    (∀ (r : Record) (st0 : AutoState) (e0 : Record),
      initAuto r = some (st0, e0) → st0.last_O_coor = none) := by
  refine ⟨?_, ?_, ?_⟩
  · intro st a2 hw hn ho
    rw [stepAuto_nonwater st a2 hw]
    have hbn : (phaseInherit st (phaseResnum st a2).2.2).name = " N  ".toList := by
      rw [(phaseInherit_frame st _).1, (phaseResnum_frame st a2).1, hn]
    rw [phaseGeom_none_of_no_oxygen st _ hbn ho]
  · intro st a2 st2 e h hname
    by_cases hw : a2.resname ∈ waters
    · rw [stepAuto, if_pos hw] at h
      rcases hsw : stepWater st a2 with _ | ⟨rn, fw, a2w⟩ <;> simp only [hsw] at h
      · exact Option.noConfusion h
      · simp only [Option.some.injEq, Prod.mk.injEq] at h
        rw [← h.1]
    · rw [stepAuto_nonwater st a2 hw] at h
      rcases hg : phaseGeom st (phaseInherit st (phaseResnum st a2).2.2) with
        _ | ⟨a2c, lo⟩ <;> simp only [hg] at h
      · exact Option.noConfusion h
      · rcases hb : phaseBreak st (phaseResnum st a2).1 (phaseResnum st a2).2.1 a2c
          with _ | ⟨rn2, sg2, osg2, a2d⟩ <;> simp only [hb] at h
        · exact Option.noConfusion h
        · simp only [Option.some.injEq, Prod.mk.injEq] at h
          rw [← h.1]
          show lo = st.last_O_coor
          refine phaseGeom_keeps_lastO st _ a2c lo ?_ hg
          rw [(phaseInherit_frame st _).1, (phaseResnum_frame st a2).1]
          exact hname
  · intro r st0 e0 h
    exact (initAuto_inv r st0 e0 h).2.1

/-- C9 witness: stepping a nitrogen record from the oxygen-free state
fails. -/
theorem C9_missing_oxygen_witness : stepAuto dfltSt c9wA2 = none :=
  C9_missing_oxygen.1 dfltSt c9wA2 (by decide) (by decide) rfl

/-- C10: the range engine only forces the record kind to ATOM and rewrites
the segid; every other field of the record is emitted exactly as parsed,
while the automatic engine additionally clears the chain id and the
element symbol on every emitted record. -/
theorem C10_range_frame :
    (∀ (ranges : List (Int × Int)) (r : Record) (r2 : Record),
      makeSegidRecord ranges r = some r2 →
      r2.ATOM = "ATOM  ".toList ∧ r2.serial = r.serial ∧ r2.name = r.name ∧
      r2.altloc = r.altloc ∧ r2.resname = r.resname ∧ r2.chain = r.chain ∧
      r2.resnum = r.resnum ∧ r2.icode = r.icode ∧ r2.x = r.x ∧ r2.y = r.y ∧
      r2.z = r.z ∧ r2.occ = r.occ ∧ r2.tempfac = r.tempfac ∧
      r2.elename = r.elename ∧ r2.charge = r.charge) ∧
    (∀ (st : AutoState) (a2 : Record) (st2 : AutoState) (e : Record),
      stepAuto st a2 = some (st2, e) →
      e.chain = " ".toList ∧ e.elename = "  ".toList) := by
  constructor
  · intro ranges r r2 h
    simp only [makeSegidRecord] at h
    rcases ranges with _ | ⟨be, rest⟩
    · simp only [Option.some.injEq] at h
      rw [← h]
      exact ⟨rfl, rfl, rfl, rfl, rfl, rfl, rfl, rfl, rfl, rfl, rfl, rfl, rfl,
        rfl, rfl⟩
    · rcases hp : pyInt r.resnum with _ | rn <;> simp only [hp] at h
      · exact Option.noConfusion h
      · simp only [Option.some.injEq] at h
        rw [← h]
        exact ⟨rfl, rfl, rfl, rfl, rfl, rfl, rfl, rfl, rfl, rfl, rfl, rfl, rfl,
          rfl, rfl⟩
  · intro st a2 st2 e h
    exact ⟨(stepAuto_clears st a2 st2 e h).1, (stepAuto_clears st a2 st2 e h).2.2⟩

/-- C10 witness: the range engine on a concrete record preserves every
field except the record kind and the segid. -/
theorem C10_range_frame_witness :
    c10wOut.ATOM = "ATOM  ".toList ∧ c10wOut.serial = c5wR.serial ∧
    c10wOut.name = c5wR.name ∧ c10wOut.altloc = c5wR.altloc ∧
    c10wOut.resname = c5wR.resname ∧ c10wOut.chain = c5wR.chain ∧
    c10wOut.resnum = c5wR.resnum ∧ c10wOut.icode = c5wR.icode ∧
    c10wOut.x = c5wR.x ∧ c10wOut.y = c5wR.y ∧ c10wOut.z = c5wR.z ∧
    c10wOut.occ = c5wR.occ ∧ c10wOut.tempfac = c5wR.tempfac ∧
    c10wOut.elename = c5wR.elename ∧ c10wOut.charge = c5wR.charge :=
  C10_range_frame.1 [(1, 13)] c5wR c10wOut (by decide)

end AddSegid

namespace AddSegid

/-- C3 counterexample: a chain change opens a new segment (segid E001 to
E002) while the previous emitted residue number 5 and the incoming
original marker 7 both differ from 1; the emitted residue number is 7,
taken from the original marker, not the reset value 1 that the claim
prescribes for this case. -/
theorem C3_counterexample :
    (makeCompatible [c3Line1, c3Line2]).map
        (List.map (fun r => (r.segid, r.resnum))) =
      some [("E001".toList, "   5".toList), ("E002".toList, "   7".toList)] ∧
    pyInt "   5".toList = some 5 ∧ pyInt "   7".toList = some 7 ∧
    ((5 : Int) ≠ 1 ∧ (7 : Int) ≠ 1) :=
  ⟨by decide, by decide, by decide, by decide⟩

/-- C3 amended: when the engine opens a new segment, the segment counter
is incremented and the segid becomes the zero-padded E label of the new
counter, with the acetate override; the residue counter is reset to 1 when
the previous emitted residue number equals 1, and otherwise it continues
from the integer value of the incoming record's original pre-renumber
residue-number marker. -/
theorem C3_amended :
    ∀ (st : AutoState) (a2 : Record) (st2 : AutoState) (e : Record)
      (a2c : Record) (lo : Option (DecNum × DecNum × DecNum)),
    a2.resname ∉ waters →
    phaseGeom st (phaseInherit st (phaseResnum st a2).2.2) = some (a2c, lo) →
    (st.chain ≠ a2c.chain ∨ a2c.segid ≠ st.atom1.segid) →
    stepAuto st a2 = some (st2, e) →
    st2.segid = st.segid + 1 ∧
    e.segid = (if a2.resname = "ACY ".toList then " ACY".toList
               else estr (st.segid + 1)) ∧
    (pyInt st.atom1.resnum = some 1 → st2.resnum = 1 ∧
      e.resnum = rjust (strInt 1) 4) ∧
    (∀ p, pyInt st.atom1.resnum = some p → p ≠ 1 →
      ∃ q, pyInt a2.resnum = some q ∧ st2.resnum = q ∧
        e.resnum = rjust (strInt q) 4) := by
  intro st a2 st2 e a2c lo hw hg hbr hstep
  rw [stepAuto_nonwater st a2 hw] at hstep
  simp only [hg] at hstep
  rcases hb : phaseBreak st (phaseResnum st a2).1 (phaseResnum st a2).2.1 a2c with
    _ | ⟨rn2, sg2, osg2, a2d⟩ <;> simp only [hb] at hstep
  · exact Option.noConfusion hstep
  · simp only [Option.some.injEq, Prod.mk.injEq] at hstep
    obtain ⟨h1, h2⟩ := hstep
    rcases phaseBreak_spec st _ _ a2c rn2 sg2 osg2 a2d hb with
      ⟨hnb, _⟩ | ⟨_, hsg, _, hseg, hresn, hresname, _, _, hone, hp⟩
    · exact absurd hbr hnb
    · have hresname2 : a2c.resname = a2.resname := by
        rcases phaseGeom_frame st _ a2c lo hg with ⟨_, hrn, _, _⟩
        rw [hrn, (phaseInherit_frame st _).2.1, (phaseResnum_frame st a2).2.1]
      refine ⟨?_, ?_, ?_, ?_⟩
      · rw [← h1]
        exact hsg
      · rw [← h2]
        show a2d.segid = (if a2.resname = "ACY ".toList then " ACY".toList
          else estr (st.segid + 1))
        rw [hseg, hresname2]
      · intro honeHyp
        have hrn1 := hone honeHyp
        subst hrn1
        refine ⟨?_, ?_⟩
        · rw [← h1]
        · rw [← h2]
          show a2d.resnum = rjust (strInt 1) 4
          exact hresn
      · intro p hpp hp1
        have hq := hp p hpp hp1
        refine ⟨rn2, hq, ?_, ?_⟩
        · rw [← h1]
        · rw [← h2]
          show a2d.resnum = rjust (strInt rn2) 4
          exact hresn

/-- C3 witness: on a chain break with previous residue number 5 the
residue counter continues from the original marker 7. -/
theorem C3_amended_witness :
    ∃ q, pyInt c3wA2.resnum = some q ∧ c3wOut.1.resnum = q ∧
      c3wOut.2.resnum = rjust (strInt q) 4 :=
  (C3_amended c3wSt c3wA2 c3wOut.1 c3wOut.2
    (phaseInherit c3wSt (phaseResnum c3wSt c3wA2).2.2) none
    (by decide) (by decide) (by decide) (by decide)).2.2.2 5 (by decide)
    (by decide)

/-- C5: with a nonempty range table, every processed record has a
residue number that parses, the first range containing it assigns the
zero-padded E segid of its 1-based index, a record contained in no range
receives the fallback segid of index length plus one, and the assigned
segid is never blank. -/
theorem C5_range_total :
    ∀ (ranges : List (Int × Int)) (r r2 : Record),
    ranges ≠ [] → makeSegidRecord ranges r = some r2 →
    ∃ rn, pyInt r.resnum = some rn ∧
      (match firstHit rn ranges with
       | some i => r2.segid = estr ((i + 1 : Nat) : Int)
       | none => r2.segid = estr ((ranges.length + 1 : Nat) : Int)) ∧
      r2.segid ≠ "    ".toList := by
  intro ranges r r2 hne h
  simp only [makeSegidRecord] at h
  rcases ranges with _ | ⟨be, rest⟩
  · exact absurd rfl hne
  · rcases hp : pyInt r.resnum with _ | rn <;> simp only [hp] at h
    · exact Option.noConfusion h
    · simp only [Option.some.injEq] at h
      have hrl := rangeLoop_firstHit (be :: rest) rn 0 (be :: rest).length r.segid
      rw [← h]
      refine ⟨rn, rfl, ?_, ?_⟩
      · rcases hfh : firstHit rn (be :: rest) with _ | j <;>
          simp only [hfh] at hrl ⊢
        · rw [if_neg (by simp)] at hrl
          exact hrl
        · show rangeLoop rn (be :: rest) 0 (be :: rest).length r.segid =
            estr ((j + 1 : Nat) : Int)
          rw [hrl]
          congr 1
          push_cast
          ring
      · rcases hfh : firstHit rn (be :: rest) with _ | j <;>
          simp only [hfh] at hrl
        · rw [if_neg (by simp)] at hrl
          show rangeLoop rn (be :: rest) 0 (be :: rest).length r.segid ≠
            "    ".toList
          rw [hrl]
          exact estr_ne_of_head _ _ (by decide)
        · show rangeLoop rn (be :: rest) 0 (be :: rest).length r.segid ≠
            "    ".toList
          rw [hrl]
          exact estr_ne_of_head _ _ (by decide)

/-- C5 witness: with ranges 1 to 13 and 14 to 30 a record with residue
number 20 is assigned segid E002 and is not blank. -/
theorem C5_range_total_witness :
    ∃ rn, pyInt c5wR.resnum = some rn ∧
      (match firstHit rn c5wRanges with
       | some i => c5wOut.segid = estr ((i + 1 : Nat) : Int)
       | none => c5wOut.segid = estr ((c5wRanges.length + 1 : Nat) : Int)) ∧
      c5wOut.segid ≠ "    ".toList :=
  C5_range_total c5wRanges c5wR c5wOut (by decide) (by decide)

end AddSegid

namespace AddSegid

/-- C2 counterexample: an acetate oxygen record followed by an acetate
nitrogen record at distance 4 from it, both non-water, are emitted with
the same segment id ACY: the acetate override of the break handler
reassigns the very segid that the geometric clearing had forced to
change. -/
theorem C2_counterexample :
    (makeCompatible [c2Line1, c2Line2, c2Line3]).map (List.map Record.segid) =
      some ["E001".toList, " ACY".toList, " ACY".toList] ∧
    (parseLine c2Line2).resname ∉ waters ∧
    (parseLine c2Line3).resname ∉ waters ∧
    (parseLine c2Line2).name = " O  ".toList ∧
    (parseLine c2Line3).name = " N  ".toList ∧
    pyFloat (parseLine c2Line2).x = some ⟨0, 3⟩ ∧
    pyFloat (parseLine c2Line2).y = some ⟨0, 3⟩ ∧
    pyFloat (parseLine c2Line2).z = some ⟨0, 3⟩ ∧
    pyFloat (parseLine c2Line3).x = some ⟨4000, 3⟩ ∧
    pyFloat (parseLine c2Line3).y = some ⟨0, 3⟩ ∧
    pyFloat (parseLine c2Line3).z = some ⟨0, 3⟩ ∧
    (9 : ℚ) < ((⟨0, 3⟩ : DecNum).val - (⟨4000, 3⟩ : DecNum).val) ^ 2 +
      ((⟨0, 3⟩ : DecNum).val - (⟨0, 3⟩ : DecNum).val) ^ 2 +
      ((⟨0, 3⟩ : DecNum).val - (⟨0, 3⟩ : DecNum).val) ^ 2 :=
  ⟨by decide, by decide, by decide, by decide, by decide, by decide, by decide,
   by decide, by decide, by decide, by decide, by norm_num [DecNum.val]⟩

/-- C2 amended: for two consecutive non-water records where the current
atom is named N, if the squared distance from the tracked oxygen
coordinate to the current coordinate exceeds 9 (distance over 3.00) and
the current residue is not acetate, the emitted record's segid differs
from the previous emitted segid; if the squared distance is at most 9 and
neither the chain-id trigger nor the segid-mismatch trigger fires, the
segids agree.  The acetate exception is forced by the counterexample. -/
theorem C2_geometric_break :
    ∀ (st : AutoState) (a2 : Record) (st2 : AutoState) (e : Record)
      (o : DecNum × DecNum × DecNum) (cx cy cz : DecNum),
    autoInv st →
    a2.resname ∉ waters →
    st.atom1.resname ∉ waters →
    a2.name = " N  ".toList →
    st.last_O_coor = some o →
    pyFloat a2.x = some cx →
    pyFloat a2.y = some cy →
    pyFloat a2.z = some cz →
    stepAuto st a2 = some (st2, e) →
    ((9 : ℚ) < (o.1.val - cx.val) ^ 2 + (o.2.1.val - cy.val) ^ 2 +
        (o.2.2.val - cz.val) ^ 2 →
      a2.resname ≠ "ACY ".toList → e.segid ≠ st.atom1.segid) ∧
    ((o.1.val - cx.val) ^ 2 + (o.2.1.val - cy.val) ^ 2 +
        (o.2.2.val - cz.val) ^ 2 ≤ 9 →
      st.chain = a2.chain →
      (phaseInherit st (phaseResnum st a2).2.2).segid = st.atom1.segid →
      e.segid = st.atom1.segid) := by
  intro st a2 st2 e o cx cy cz hinv hwa hwprev hn ho hx hy hz hstep
  set a2b := phaseInherit st (phaseResnum st a2).2.2 with ha2b
  have hbn : a2b.name = " N  ".toList := by
    rw [ha2b, (phaseInherit_frame st _).1, (phaseResnum_frame st a2).1, hn]
  have hbx : pyFloat a2b.x = some cx := by
    rw [ha2b, (phaseInherit_frame st _).2.2.2.2.1,
      (phaseResnum_frame st a2).2.2.2.2.1, hx]
  have hby : pyFloat a2b.y = some cy := by
    rw [ha2b, (phaseInherit_frame st _).2.2.2.2.2.1,
      (phaseResnum_frame st a2).2.2.2.2.2.1, hy]
  have hbz : pyFloat a2b.z = some cz := by
    rw [ha2b, (phaseInherit_frame st _).2.2.2.2.2.2,
      (phaseResnum_frame st a2).2.2.2.2.2.2, hz]
  have hbres : a2b.resname = a2.resname := by
    rw [ha2b, (phaseInherit_frame st _).2.1, (phaseResnum_frame st a2).2.1]
  have hbchain : a2b.chain = a2.chain := by
    rw [ha2b, (phaseInherit_frame st _).2.2.1, (phaseResnum_frame st a2).2.2.2.1]
  have hGeom := phaseGeom_N st a2b o cx cy cz hbn ho hbx hby hbz
  constructor
  · intro hgt hacy
    have hg9 : ((((o.1.sub cx).mul (o.1.sub cx)).add
        ((o.2.1.sub cy).mul (o.2.1.sub cy))).add
        ((o.2.2.sub cz).mul (o.2.2.sub cz))).gtNine = true :=
      (d2_gtNine_iff o cx cy cz).mpr hgt
    have hG2 : phaseGeom st a2b = some ({a2b with segid := " ".toList}, some o) := by
      rw [hGeom, if_pos hg9]
    have hstep2 := hstep
    rw [stepAuto_nonwater st a2 hwa] at hstep2
    rw [← ha2b] at hstep2
    simp only [hG2] at hstep2
    rcases hb : phaseBreak st (phaseResnum st a2).1 (phaseResnum st a2).2.1
        {a2b with segid := " ".toList} with _ | ⟨rn2, sg2, osg2, a2d⟩ <;>
      simp only [hb] at hstep2
    · exact Option.noConfusion hstep2
    · simp only [Option.some.injEq, Prod.mk.injEq] at hstep2
      obtain ⟨h1, h2⟩ := hstep2
      have hne1 : ([' '] : Str) ≠ st.atom1.segid := by
        intro heq
        rcases hinv.2 with hi | hi | hi
        · exact estr_ne_of_head st.segid [' '] (by decide) (hi.symm.trans heq.symm)
        · exact absurd (heq.trans hi) (by decide)
        · exact absurd (heq.trans hi) (by decide)
      rcases phaseBreak_spec st _ _ _ rn2 sg2 osg2 a2d hb with
        ⟨hnb, _⟩ | ⟨_, _, _, hseg, _, _, _, _, _, _⟩
      · push_neg at hnb
        exact absurd (show ([' '] : Str) = st.atom1.segid from hnb.2) hne1
      · have hres3 : ({a2b with segid := (" ".toList : Str)} : Record).resname =
            a2.resname := hbres
        have heseg : e.segid = estr (st.segid + 1) := by
          rw [← h2]
          show a2d.segid = estr (st.segid + 1)
          rw [hseg, if_neg (fun hq => hacy (hres3 ▸ hq))]
        rw [heseg]
        rcases hinv.2 with hi | hi | hi <;> rw [hi]
        · intro hEq
          have h9 := estr_inj_nonneg (st.segid + 1) st.segid
            (by have := hinv.1; omega) (by have := hinv.1; omega) hEq
          omega
        · exact estr_ne_of_head _ _ (by decide)
        · exact estr_ne_of_head _ _ (by decide)
  · intro hle hchain hseg2
    have hg9 : ((((o.1.sub cx).mul (o.1.sub cx)).add
        ((o.2.1.sub cy).mul (o.2.1.sub cy))).add
        ((o.2.2.sub cz).mul (o.2.2.sub cz))).gtNine = false := by
      cases hgt : ((((o.1.sub cx).mul (o.1.sub cx)).add
          ((o.2.1.sub cy).mul (o.2.1.sub cy))).add
          ((o.2.2.sub cz).mul (o.2.2.sub cz))).gtNine
      · rfl
      · exact absurd ((d2_gtNine_iff o cx cy cz).mp hgt) (not_lt.mpr hle)
    have hG2 : phaseGeom st a2b = some (a2b, some o) := by
      rw [hGeom, if_neg (by simp [hg9])]
    have hstep2 := hstep
    rw [stepAuto_nonwater st a2 hwa] at hstep2
    rw [← ha2b] at hstep2
    simp only [hG2] at hstep2
    rcases hb : phaseBreak st (phaseResnum st a2).1 (phaseResnum st a2).2.1 a2b
        with _ | ⟨rn2, sg2, osg2, a2d⟩ <;> simp only [hb] at hstep2
    · exact Option.noConfusion hstep2
    · simp only [Option.some.injEq, Prod.mk.injEq] at hstep2
      obtain ⟨h1, h2⟩ := hstep2
      rcases phaseBreak_spec st _ _ a2b rn2 sg2 osg2 a2d hb with
        ⟨hnb, _, _, _, ha⟩ | ⟨hbr2, _⟩
      · rw [← h2]
        show a2d.segid = st.atom1.segid
        rw [ha]
        exact hseg2
      · exfalso
        rcases hbr2 with hc | hs
        · rw [hbchain] at hc
          exact hc hchain
        · exact hs hseg2

/-- C2 witness: from a state tracking the oxygen at the origin, stepping a
glycine nitrogen at x equal 4 yields a segid different from the previous
record's segid E001. -/
theorem C2_geometric_break_witness : c2wOut.2.segid ≠ c2wSt.atom1.segid :=
  (C2_geometric_break c2wSt c2wA2 c2wOut.1 c2wOut.2
    (⟨0, 3⟩, ⟨0, 3⟩, ⟨0, 3⟩) ⟨4000, 3⟩ ⟨0, 3⟩ ⟨0, 3⟩
    (by decide) (by decide) (by decide) (by decide) (by decide) (by decide)
    (by decide) (by decide) (by decide)).1
    (by norm_num [DecNum.val]) (by decide)

end AddSegid

namespace AddSegid

/-- C4: during parsing, when the residue-number columns 23-26 are not
blank and columns 24-27 read as a strictly larger integer than columns
23-26, the parsed residue number is taken from columns 24-27 and the
insertion code is cleared to a space. -/
theorem C4_wide_resnum :
    ∀ (line : Str) (a b : Int),
    readStr (normalize line) 23 26 ≠ "    ".toList →
    pyInt (readStr (normalize line) 23 26) = some a →
    pyInt (readStr (normalize line) 24 27) = some b →
    a < b →
    (parseLine line).resnum = readStr (normalize line) 24 27 ∧
    (parseLine line).icode = [' '] := by
  intro line a b hnb hpa hpb hab
  have hL := normalize_length line
  have hsplit : readStr (normalize line) 24 27 =
      readStr (normalize line) 24 26 ++ readStr (normalize line) 27 27 := by
    simp only [readStr]
    rw [show (27 - 24 + 1) = 3 + 1 from rfl, List.take_add]
    congr 1
    rw [List.drop_drop]
  have h27len : (readStr (normalize line) 27 27).length = 1 :=
    readStr_length _ hL 27 27 (by omega) (by omega) (by omega)
  obtain ⟨c27, hc27⟩ : ∃ c, readStr (normalize line) 27 27 = [c] := by
    rcases hu : readStr (normalize line) 27 27 with _ | ⟨c, t⟩
    · rw [hu] at h27len
      simp at h27len
    · rw [hu] at h27len
      simp at h27len
      exact ⟨c, by rw [h27len]⟩
  have halpha : strIsAlpha (readStr (normalize line) 27 27) = false := by
    by_cases hsa : strIsAlpha (readStr (normalize line) 27 27) = true
    · exfalso
      rw [hc27] at hsa
      have hpia : pyIsAlpha c27 = true := by
        simp [strIsAlpha] at hsa
        exact hsa
      have hlast : (readStr (normalize line) 24 27).getLast? = some c27 := by
        rw [hsplit, hc27, List.getLast?_append_of_ne_nil _ (by simp)]
        rfl
      have hnone := pyInt_alpha_getLast _ c27 hlast hpia
      rw [hnone] at hpb
      exact Option.noConfusion hpb
    · simpa using hsa
  constructor
  · simp only [parseLine]
    rw [halpha]
    simp only [Bool.false_eq_true, if_false]
    rw [if_pos hnb]
    simp only [hpa, hpb]
    rw [if_pos hab]
  · simp only [parseLine]
    rw [halpha]
    simp only [Bool.false_eq_true, if_false]
    rw [if_pos hnb]
    simp only [hpa, hpb]
    rw [if_pos hab]

/-- C4 witness: a record whose columns 23-27 hold 1000 parses with
residue number 1000 and a cleared insertion code. -/
theorem C4_wide_resnum_witness :
    (parseLine c4Line).resnum = readStr (normalize c4Line) 24 27 ∧
    (parseLine c4Line).icode = [' '] :=
  C4_wide_resnum c4Line 100 1000 (by decide) (by decide) (by decide)
    (by decide)

/-- C7: parsing a well-formed 81-character record line and serializing it
in either dialect reproduces the original column content of every
pass-through field (serial, altloc, the three coordinates, occupancy and
temperature factor) byte for byte. -/
theorem C7_roundtrip :
    ∀ line : Str, line.length = 81 →
    (readStr line 1 6 = "HETATM".toList ∨ readStr line 1 4 = "ATOM".toList) →
    (readStr (writeCharmm (parseLine line)) 7 11 = readStr line 7 11 ∧
     readStr (writeCharmm (parseLine line)) 17 17 = readStr line 17 17 ∧
     readStr (writeCharmm (parseLine line)) 31 38 = readStr line 31 38 ∧
     readStr (writeCharmm (parseLine line)) 39 46 = readStr line 39 46 ∧
     readStr (writeCharmm (parseLine line)) 47 54 = readStr line 47 54 ∧
     readStr (writeCharmm (parseLine line)) 55 60 = readStr line 55 60 ∧
     readStr (writeCharmm (parseLine line)) 61 66 = readStr line 61 66) ∧
    (readStr (writePdb (parseLine line)) 7 11 = readStr line 7 11 ∧
     readStr (writePdb (parseLine line)) 17 17 = readStr line 17 17 ∧
     readStr (writePdb (parseLine line)) 31 38 = readStr line 31 38 ∧
     readStr (writePdb (parseLine line)) 39 46 = readStr line 39 46 ∧
     readStr (writePdb (parseLine line)) 47 54 = readStr line 47 54 ∧
     readStr (writePdb (parseLine line)) 55 60 = readStr line 55 60 ∧
     readStr (writePdb (parseLine line)) 61 66 = readStr line 61 66) := by
  intro line h81 hk
  obtain ⟨hATOM, hserial, hname, haltloc, hresname, hchain, hx, hy, hz, hocc,
    htemp, hsegid, helen, hcharge⟩ := parseLine_passthrough line h81 hk
  obtain ⟨lATOM, lserial, lname, laltloc, lresname, lchain, lresnum, licode,
    lx, ly, lz, locc, ltemp, lsegid, lelen, lcharge⟩ :=
    parseLine_field_lengths line
  rw [← hserial, ← haltloc, ← hx, ← hy, ← hz, ← hocc, ← htemp]
  constructor
  · refine ⟨?_, ?_, ?_, ?_, ?_, ?_, ?_⟩
    · refine readStr_concat (writeCharmm (parseLine line))
        ((parseLine line).ATOM)
        ((parseLine line).serial)
        (" ".toList ++ (parseLine line).name ++ (parseLine line).altloc ++ (parseLine line).resname ++ (parseLine line).chain ++ " ".toList ++ (parseLine line).resnum ++ "   ".toList ++ (parseLine line).x ++ (parseLine line).y ++ (parseLine line).z ++ (parseLine line).occ ++ (parseLine line).tempfac ++ "      ".toList ++ (parseLine line).segid ++ (parseLine line).elename ++ (parseLine line).charge ++ (['\n'] : Str))
        7 11 ?_ ?_ ?_
      · simp only [writeCharmm, List.append_assoc]
      · simp only [List.length_append, lATOM, lserial, lname, laltloc, lresname, lchain, lresnum, licode, lx, ly, lz, locc, ltemp, lsegid, lelen, lcharge]
      · rw [lserial]
    · refine readStr_concat (writeCharmm (parseLine line))
        ((parseLine line).ATOM ++ (parseLine line).serial ++ " ".toList ++ (parseLine line).name)
        ((parseLine line).altloc)
        ((parseLine line).resname ++ (parseLine line).chain ++ " ".toList ++ (parseLine line).resnum ++ "   ".toList ++ (parseLine line).x ++ (parseLine line).y ++ (parseLine line).z ++ (parseLine line).occ ++ (parseLine line).tempfac ++ "      ".toList ++ (parseLine line).segid ++ (parseLine line).elename ++ (parseLine line).charge ++ (['\n'] : Str))
        17 17 ?_ ?_ ?_
      · simp only [writeCharmm, List.append_assoc]
      · simp only [List.length_append, lATOM, lserial, lname, laltloc, lresname, lchain, lresnum, licode, lx, ly, lz, locc, ltemp, lsegid, lelen, lcharge]
        all_goals decide
      · rw [laltloc]
    · refine readStr_concat (writeCharmm (parseLine line))
        ((parseLine line).ATOM ++ (parseLine line).serial ++ " ".toList ++ (parseLine line).name ++ (parseLine line).altloc ++ (parseLine line).resname ++ (parseLine line).chain ++ " ".toList ++ (parseLine line).resnum ++ "   ".toList)
        ((parseLine line).x)
        ((parseLine line).y ++ (parseLine line).z ++ (parseLine line).occ ++ (parseLine line).tempfac ++ "      ".toList ++ (parseLine line).segid ++ (parseLine line).elename ++ (parseLine line).charge ++ (['\n'] : Str))
        31 38 ?_ ?_ ?_
      · simp only [writeCharmm, List.append_assoc]
      · simp only [List.length_append, lATOM, lserial, lname, laltloc, lresname, lchain, lresnum, licode, lx, ly, lz, locc, ltemp, lsegid, lelen, lcharge]
        all_goals decide
      · rw [lx]
    · refine readStr_concat (writeCharmm (parseLine line))
        ((parseLine line).ATOM ++ (parseLine line).serial ++ " ".toList ++ (parseLine line).name ++ (parseLine line).altloc ++ (parseLine line).resname ++ (parseLine line).chain ++ " ".toList ++ (parseLine line).resnum ++ "   ".toList ++ (parseLine line).x)
        ((parseLine line).y)
        ((parseLine line).z ++ (parseLine line).occ ++ (parseLine line).tempfac ++ "      ".toList ++ (parseLine line).segid ++ (parseLine line).elename ++ (parseLine line).charge ++ (['\n'] : Str))
        39 46 ?_ ?_ ?_
      · simp only [writeCharmm, List.append_assoc]
      · simp only [List.length_append, lATOM, lserial, lname, laltloc, lresname, lchain, lresnum, licode, lx, ly, lz, locc, ltemp, lsegid, lelen, lcharge]
        all_goals decide
      · rw [ly]
    · refine readStr_concat (writeCharmm (parseLine line))
        ((parseLine line).ATOM ++ (parseLine line).serial ++ " ".toList ++ (parseLine line).name ++ (parseLine line).altloc ++ (parseLine line).resname ++ (parseLine line).chain ++ " ".toList ++ (parseLine line).resnum ++ "   ".toList ++ (parseLine line).x ++ (parseLine line).y)
        ((parseLine line).z)
        ((parseLine line).occ ++ (parseLine line).tempfac ++ "      ".toList ++ (parseLine line).segid ++ (parseLine line).elename ++ (parseLine line).charge ++ (['\n'] : Str))
        47 54 ?_ ?_ ?_
      · simp only [writeCharmm, List.append_assoc]
      · simp only [List.length_append, lATOM, lserial, lname, laltloc, lresname, lchain, lresnum, licode, lx, ly, lz, locc, ltemp, lsegid, lelen, lcharge]
        all_goals decide
      · rw [lz]
    · refine readStr_concat (writeCharmm (parseLine line))
        ((parseLine line).ATOM ++ (parseLine line).serial ++ " ".toList ++ (parseLine line).name ++ (parseLine line).altloc ++ (parseLine line).resname ++ (parseLine line).chain ++ " ".toList ++ (parseLine line).resnum ++ "   ".toList ++ (parseLine line).x ++ (parseLine line).y ++ (parseLine line).z)
        ((parseLine line).occ)
        ((parseLine line).tempfac ++ "      ".toList ++ (parseLine line).segid ++ (parseLine line).elename ++ (parseLine line).charge ++ (['\n'] : Str))
        55 60 ?_ ?_ ?_
      · simp only [writeCharmm, List.append_assoc]
      · simp only [List.length_append, lATOM, lserial, lname, laltloc, lresname, lchain, lresnum, licode, lx, ly, lz, locc, ltemp, lsegid, lelen, lcharge]
        all_goals decide
      · rw [locc]
    · refine readStr_concat (writeCharmm (parseLine line))
        ((parseLine line).ATOM ++ (parseLine line).serial ++ " ".toList ++ (parseLine line).name ++ (parseLine line).altloc ++ (parseLine line).resname ++ (parseLine line).chain ++ " ".toList ++ (parseLine line).resnum ++ "   ".toList ++ (parseLine line).x ++ (parseLine line).y ++ (parseLine line).z ++ (parseLine line).occ)
        ((parseLine line).tempfac)
        ("      ".toList ++ (parseLine line).segid ++ (parseLine line).elename ++ (parseLine line).charge ++ (['\n'] : Str))
        61 66 ?_ ?_ ?_
      · simp only [writeCharmm, List.append_assoc]
      · simp only [List.length_append, lATOM, lserial, lname, laltloc, lresname, lchain, lresnum, licode, lx, ly, lz, locc, ltemp, lsegid, lelen, lcharge]
        all_goals decide
      · rw [ltemp]
  · refine ⟨?_, ?_, ?_, ?_, ?_, ?_, ?_⟩
    · refine readStr_concat (writePdb (parseLine line))
        ((parseLine line).ATOM)
        ((parseLine line).serial)
        (" ".toList ++ (parseLine line).name ++ (parseLine line).altloc ++ (parseLine line).resname ++ (parseLine line).chain ++ (parseLine line).resnum ++ (parseLine line).icode ++ "   ".toList ++ (parseLine line).x ++ (parseLine line).y ++ (parseLine line).z ++ (parseLine line).occ ++ (parseLine line).tempfac ++ "      ".toList ++ (parseLine line).segid ++ (parseLine line).elename ++ (parseLine line).charge ++ (['\n'] : Str))
        7 11 ?_ ?_ ?_
      · simp only [writePdb, List.append_assoc]
      · simp only [List.length_append, lATOM, lserial, lname, laltloc, lresname, lchain, lresnum, licode, lx, ly, lz, locc, ltemp, lsegid, lelen, lcharge]
      · rw [lserial]
    · refine readStr_concat (writePdb (parseLine line))
        ((parseLine line).ATOM ++ (parseLine line).serial ++ " ".toList ++ (parseLine line).name)
        ((parseLine line).altloc)
        ((parseLine line).resname ++ (parseLine line).chain ++ (parseLine line).resnum ++ (parseLine line).icode ++ "   ".toList ++ (parseLine line).x ++ (parseLine line).y ++ (parseLine line).z ++ (parseLine line).occ ++ (parseLine line).tempfac ++ "      ".toList ++ (parseLine line).segid ++ (parseLine line).elename ++ (parseLine line).charge ++ (['\n'] : Str))
        17 17 ?_ ?_ ?_
      · simp only [writePdb, List.append_assoc]
      · simp only [List.length_append, lATOM, lserial, lname, laltloc, lresname, lchain, lresnum, licode, lx, ly, lz, locc, ltemp, lsegid, lelen, lcharge]
        all_goals decide
      · rw [laltloc]
    · refine readStr_concat (writePdb (parseLine line))
        ((parseLine line).ATOM ++ (parseLine line).serial ++ " ".toList ++ (parseLine line).name ++ (parseLine line).altloc ++ (parseLine line).resname ++ (parseLine line).chain ++ (parseLine line).resnum ++ (parseLine line).icode ++ "   ".toList)
        ((parseLine line).x)
        ((parseLine line).y ++ (parseLine line).z ++ (parseLine line).occ ++ (parseLine line).tempfac ++ "      ".toList ++ (parseLine line).segid ++ (parseLine line).elename ++ (parseLine line).charge ++ (['\n'] : Str))
        31 38 ?_ ?_ ?_
      · simp only [writePdb, List.append_assoc]
      · simp only [List.length_append, lATOM, lserial, lname, laltloc, lresname, lchain, lresnum, licode, lx, ly, lz, locc, ltemp, lsegid, lelen, lcharge]
        all_goals decide
      · rw [lx]
    · refine readStr_concat (writePdb (parseLine line))
        ((parseLine line).ATOM ++ (parseLine line).serial ++ " ".toList ++ (parseLine line).name ++ (parseLine line).altloc ++ (parseLine line).resname ++ (parseLine line).chain ++ (parseLine line).resnum ++ (parseLine line).icode ++ "   ".toList ++ (parseLine line).x)
        ((parseLine line).y)
        ((parseLine line).z ++ (parseLine line).occ ++ (parseLine line).tempfac ++ "      ".toList ++ (parseLine line).segid ++ (parseLine line).elename ++ (parseLine line).charge ++ (['\n'] : Str))
        39 46 ?_ ?_ ?_
      · simp only [writePdb, List.append_assoc]
      · simp only [List.length_append, lATOM, lserial, lname, laltloc, lresname, lchain, lresnum, licode, lx, ly, lz, locc, ltemp, lsegid, lelen, lcharge]
        all_goals decide
      · rw [ly]
    · refine readStr_concat (writePdb (parseLine line))
        ((parseLine line).ATOM ++ (parseLine line).serial ++ " ".toList ++ (parseLine line).name ++ (parseLine line).altloc ++ (parseLine line).resname ++ (parseLine line).chain ++ (parseLine line).resnum ++ (parseLine line).icode ++ "   ".toList ++ (parseLine line).x ++ (parseLine line).y)
        ((parseLine line).z)
        ((parseLine line).occ ++ (parseLine line).tempfac ++ "      ".toList ++ (parseLine line).segid ++ (parseLine line).elename ++ (parseLine line).charge ++ (['\n'] : Str))
        47 54 ?_ ?_ ?_
      · simp only [writePdb, List.append_assoc]
      · simp only [List.length_append, lATOM, lserial, lname, laltloc, lresname, lchain, lresnum, licode, lx, ly, lz, locc, ltemp, lsegid, lelen, lcharge]
        all_goals decide
      · rw [lz]
    · refine readStr_concat (writePdb (parseLine line))
        ((parseLine line).ATOM ++ (parseLine line).serial ++ " ".toList ++ (parseLine line).name ++ (parseLine line).altloc ++ (parseLine line).resname ++ (parseLine line).chain ++ (parseLine line).resnum ++ (parseLine line).icode ++ "   ".toList ++ (parseLine line).x ++ (parseLine line).y ++ (parseLine line).z)
        ((parseLine line).occ)
        ((parseLine line).tempfac ++ "      ".toList ++ (parseLine line).segid ++ (parseLine line).elename ++ (parseLine line).charge ++ (['\n'] : Str))
        55 60 ?_ ?_ ?_
      · simp only [writePdb, List.append_assoc]
      · simp only [List.length_append, lATOM, lserial, lname, laltloc, lresname, lchain, lresnum, licode, lx, ly, lz, locc, ltemp, lsegid, lelen, lcharge]
        all_goals decide
      · rw [locc]
    · refine readStr_concat (writePdb (parseLine line))
        ((parseLine line).ATOM ++ (parseLine line).serial ++ " ".toList ++ (parseLine line).name ++ (parseLine line).altloc ++ (parseLine line).resname ++ (parseLine line).chain ++ (parseLine line).resnum ++ (parseLine line).icode ++ "   ".toList ++ (parseLine line).x ++ (parseLine line).y ++ (parseLine line).z ++ (parseLine line).occ)
        ((parseLine line).tempfac)
        ("      ".toList ++ (parseLine line).segid ++ (parseLine line).elename ++ (parseLine line).charge ++ (['\n'] : Str))
        61 66 ?_ ?_ ?_
      · simp only [writePdb, List.append_assoc]
      · simp only [List.length_append, lATOM, lserial, lname, laltloc, lresname, lchain, lresnum, licode, lx, ly, lz, locc, ltemp, lsegid, lelen, lcharge]
        all_goals decide
      · rw [ltemp]

/-- C7 witness: a concrete alanine line round-trips its pass-through
columns in both dialects. -/
theorem C7_roundtrip_witness :
    readStr (writeCharmm (parseLine c2Line1)) 31 38 = readStr c2Line1 31 38 ∧
    readStr (writePdb (parseLine c2Line1)) 31 38 = readStr c2Line1 31 38 :=
  ⟨((C7_roundtrip c2Line1 (by decide) (by decide)).1).2.2.1,
   ((C7_roundtrip c2Line1 (by decide) (by decide)).2).2.2.1⟩

end AddSegid
